import Mathlib

/-!
Shallow embedding of the Window Merge browser extension (background script and
PWA-detection content script).

The host windowing platform (windows, tab strips, tab groups) is modelled as an
explicit state; every mutating host primitive the extension calls is a state
transformer.  A host call can be rejected by the host for reasons opaque to the
extension, so each mutating call consumes one entry of a failure oracle
(`true` = the host accepts the call, `false` = it throws; an exhausted oracle
means all remaining calls succeed), and is recorded in a trace.  The extension
only ever moves tabs between two distinct windows, and on the host platform pin
state and group membership do not survive such a cross-window move, so the move
primitive clears both.
-/

/-- A browser tab: identifier, pinned flag, optional group membership.
The owning window is tracked by the host state, not by the tab record. -/
structure Tab where
  id : Nat
  pinned : Bool
  groupId : Option Nat
deriving DecidableEq, Repr

/-- A tab group: identifier, owning window, title, color, collapsed flag. -/
structure TabGroup where
  id : Nat
  windowId : Nat
  title : String
  color : Nat
  collapsed : Bool
deriving DecidableEq, Repr

/-- Window types distinguished by the host (`chrome.windows.getAll` filters on
`windowTypes: ['normal']`). -/
inductive WindowType where
  | normal
  | popup
deriving DecidableEq, Repr

/-- A browser window: identifier, incognito flag, window type. -/
structure Window where
  id : Nat
  incognito : Bool
  wtype : WindowType
deriving DecidableEq, Repr

/-- The host platform state.  `tabs` is the global tab-strip order: the strip of
window `w` is the sublist of entries whose first component is `w`.
`nextGroupId` is the next fresh identifier the host hands out for
`chrome.tabs.group`. -/
structure HostState where
  windows : List Window
  tabs : List (Nat × Tab)
  groups : List TabGroup
  nextGroupId : Nat
deriving DecidableEq, Repr

/-- All tabs of the host, in global strip order. -/
def allTabs (s : HostState) : List Tab :=
  s.tabs.map Prod.snd

/-- `chrome.tabs.query({windowId})`: the tab strip of window `w`, in order. -/
def tabsQuery (s : HostState) (w : Nat) : List Tab :=
  (s.tabs.filter (fun p => p.1 == w)).map Prod.snd

/-- `chrome.tabs.query({windowId, groupId})`: tabs of window `w` in group `gid`. -/
def tabsQueryGroup (s : HostState) (w gid : Nat) : List Tab :=
  (tabsQuery s w).filter (fun t => t.groupId == some gid)

/-- `chrome.tabGroups.query({windowId})`: the groups owned by window `w`. -/
def tabGroupsQuery (s : HostState) (w : Nat) : List TabGroup :=
  s.groups.filter (fun g => g.windowId == w)

/-- `chrome.windows.get(windowId)`. -/
def windowsGet (s : HostState) (w : Nat) : Option Window :=
  s.windows.find? (fun win => win.id == w)

/-- `chrome.windows.getAll({windowTypes: ['normal']})`. -/
def windowsGetAllNormal (s : HostState) : List Window :=
  s.windows.filter (fun w => w.wtype == WindowType.normal)

/-- Whether a window with identifier `w` exists on the host. -/
def windowExists (s : HostState) (w : Nat) : Bool :=
  s.windows.any (fun win => win.id == w)

/-- A tab after a cross-window move: on the host platform neither pin state nor
group membership survives the move. -/
def clearTab (t : Tab) : Tab :=
  { t with pinned := false, groupId := none }

/-- Insert tab `t` into the global strip list so that it lands at index `i` of
window `w`'s strip (entries of other windows are passed over). -/
def insertFlat (w : Nat) (i : Nat) (t : Tab) : List (Nat × Tab) → List (Nat × Tab)
  | [] => [(w, t)]
  | p :: rest =>
    if p.1 == w then
      if i == 0 then (w, t) :: p :: rest
      else p :: insertFlat w (i - 1) t rest
    else p :: insertFlat w i t rest

/-- Place tab `t` in window `w` at a `chrome.tabs.move` index: `-1` means the
end of the strip, a non-negative index counts positions in `w`'s strip. -/
def placeFlat (L : List (Nat × Tab)) (w : Nat) (index : Int) (t : Tab) :
    List (Nat × Tab) :=
  if index == -1 then L ++ [(w, t)] else insertFlat w index.toNat t L

/-- State effect of a successful `chrome.tabs.move(tabId, {windowId, index})`:
the tab is removed from its strip and placed in window `w` at `index`, losing
pin state and group membership (all moves this extension performs are
cross-window).  A move to a nonexistent window or of a nonexistent tab never
succeeds on the host, so it leaves the state unchanged here. -/
def moveTabState (s : HostState) (tabId w : Nat) (index : Int) : HostState :=
  if windowExists s w then
    match (allTabs s).find? (fun t => t.id == tabId) with
    | none => s
    | some t =>
      { s with tabs := placeFlat (s.tabs.filter (fun p => p.2.id != tabId)) w index (clearTab t) }
  else s

/-- State effect of a successful batch `chrome.tabs.move(tabIds, ...)` to the
end of window `w`: the tabs are appended in order, one after the other. -/
def moveTabsState (s : HostState) (tabIds : List Nat) (w : Nat) : HostState :=
  tabIds.foldl (fun s tid => moveTabState s tid w (-1)) s

/-- State effect of a successful `chrome.tabs.update(tabId, {pinned})`. -/
def updatePinnedState (s : HostState) (tabId : Nat) (pin : Bool) : HostState :=
  { s with tabs := s.tabs.map (fun p =>
      (p.1, if p.2.id == tabId then { p.2 with pinned := pin } else p.2)) }

/-- State effect of a successful `chrome.tabGroups.move(groupId, {windowId, index: -1})`:
the whole group (its member tabs, keeping their membership and relative order)
is appended to the end of window `w`'s strip and the group record changes
owner. -/
def moveGroupState (s : HostState) (gid w : Nat) : HostState :=
  if windowExists s w then
    { s with
      tabs := s.tabs.filter (fun p => p.2.groupId != some gid)
        ++ (s.tabs.filter (fun p => p.2.groupId == some gid)).map (fun p => (w, p.2)),
      groups := s.groups.map (fun g =>
        if g.id == gid then { g with windowId := w } else g) }
  else s

/-- State effect of a successful `chrome.tabs.group({tabIds, createProperties: {windowId}})`:
a fresh group is created in window `w` (host defaults: empty title, color 0,
not collapsed) and the named tabs become its members.  Returns the new group
identifier. -/
def groupTabsState (s : HostState) (tabIds : List Nat) (w : Nat) : Nat × HostState :=
  (s.nextGroupId,
   { s with
     tabs := s.tabs.map (fun p =>
       (p.1, if tabIds.contains p.2.id then { p.2 with groupId := some s.nextGroupId } else p.2)),
     groups := s.groups ++ [⟨s.nextGroupId, w, "", 0, false⟩],
     nextGroupId := s.nextGroupId + 1 })

/-- State effect of a successful `chrome.tabGroups.update(groupId, {title, color, collapsed})`. -/
def updateGroupState (s : HostState) (gid : Nat) (title : String) (color : Nat)
    (collapsed : Bool) : HostState :=
  { s with groups := s.groups.map (fun g =>
      if g.id == gid then { g with title := title, color := color, collapsed := collapsed } else g) }

/-- A mutating host call, as recorded in the trace. -/
inductive Call where
  | moveTab (tabId windowId : Nat) (index : Int)
  | moveTabs (tabIds : List Nat) (windowId : Nat)
  | updatePinned (tabId : Nat) (pinned : Bool)
  | moveGroup (groupId windowId : Nat) (index : Int)
  | groupTabs (tabIds : List Nat) (windowId : Nat)
  | updateGroup (groupId : Nat) (title : String) (color : Nat) (collapsed : Bool)
deriving DecidableEq, Repr

/-- The extension's view of the world while a merge runs: the host state, the
failure oracle for the upcoming mutating calls, and the trace of mutating
calls issued so far. -/
structure Eff where
  state : HostState
  oracle : List Bool
  trace : List Call
deriving DecidableEq, Repr

/-- Consume the next oracle entry; an exhausted oracle means the call succeeds. -/
def takeOracle (e : Eff) : Bool × Eff :=
  match e.oracle with
  | [] => (true, e)
  | b :: rest => (b, { e with oracle := rest })

/-- Issue a mutating host call: record it in the trace, consume one oracle
entry, and apply the state update exactly when the host accepts the call. -/
def hostCall (c : Call) (upd : HostState → HostState) (e : Eff) : Bool × Eff :=
  let (ok, e1) := takeOracle e
  let e2 := { e1 with trace := e1.trace ++ [c] }
  if ok then (true, { e2 with state := upd e2.state }) else (false, e2)

/-- `chrome.tabs.move` on a single tab (throws ↦ `false`). -/
def chromeTabsMove (tabId w : Nat) (index : Int) (e : Eff) : Bool × Eff :=
  hostCall (Call.moveTab tabId w index) (fun s => moveTabState s tabId w index) e

/-- `chrome.tabs.move` on a batch of tabs, to the end of the target window. -/
def chromeTabsMoveMultiple (tabIds : List Nat) (w : Nat) (e : Eff) : Bool × Eff :=
  hostCall (Call.moveTabs tabIds w) (fun s => moveTabsState s tabIds w) e

/-- `chrome.tabs.update(tabId, {pinned})`. -/
def chromeTabsUpdatePinned (tabId : Nat) (pin : Bool) (e : Eff) : Bool × Eff :=
  hostCall (Call.updatePinned tabId pin) (fun s => updatePinnedState s tabId pin) e

/-- `chrome.tabGroups.move(groupId, {windowId, index})`; the extension only
moves groups to the end of the target strip. -/
def chromeTabGroupsMove (gid w : Nat) (index : Int) (e : Eff) : Bool × Eff :=
  hostCall (Call.moveGroup gid w index) (fun s => moveGroupState s gid w) e

/-- `chrome.tabs.group(...)`: returns the fresh group id on success. -/
def chromeTabsGroup (tabIds : List Nat) (w : Nat) (e : Eff) : Option Nat × Eff :=
  let (ok, e1) := takeOracle e
  let e2 := { e1 with trace := e1.trace ++ [Call.groupTabs tabIds w] }
  if ok then
    ((groupTabsState e2.state tabIds w).1,
     { e2 with state := (groupTabsState e2.state tabIds w).2 })
  else (none, e2)

/-- `chrome.tabGroups.update(groupId, {title, color, collapsed})`. -/
def chromeTabGroupsUpdate (gid : Nat) (title : String) (color : Nat)
    (collapsed : Bool) (e : Eff) : Bool × Eff :=
  hostCall (Call.updateGroup gid title color collapsed)
    (fun s => updateGroupState s gid title color collapsed) e

/- ============================================================
   The extension's code (background script), function by function.
   ============================================================ -/

/-- `TAB_POSITION.START`. -/
def TAB_POSITION_START : Int := 0

/-- `TAB_POSITION.END`. -/
def TAB_POSITION_END : Int := -1

/-- `safeMove(tabId, windowId, index)`: single-tab move with the host rejection
converted to a boolean success flag. -/
def safeMove (tabId windowId : Nat) (index : Int) (e : Eff) : Bool × Eff :=
  chromeTabsMove tabId windowId index e

/-- `safeMoveMultiple(tabIds, windowId)`: batch move to the end of the target
window, rejection converted to a boolean flag. -/
def safeMoveMultiple (tabIds : List Nat) (windowId : Nat) (e : Eff) : Bool × Eff :=
  chromeTabsMoveMultiple tabIds windowId e

/-- `safeMoveGroup(groupId, windowId)`: whole-group move to the end of the
target window, rejection converted to a boolean flag. -/
def safeMoveGroup (groupId windowId : Nat) (e : Eff) : Bool × Eff :=
  chromeTabGroupsMove groupId windowId TAB_POSITION_END e

/-- One entry of the `grouped` classification: a group and its member tabs. -/
structure GroupedTabs where
  group : TabGroup
  tabs : List Tab
deriving DecidableEq, Repr

/-- The classifier's result. -/
structure ClassifiedTabs where
  pinned : List Tab
  grouped : List GroupedTabs
  ungrouped : List Tab
deriving DecidableEq, Repr

/-- `classifyTabs(tabs, windowId)`: pinned tabs by the pinned flag; one
`GroupedTabs` entry per group of the window, its members re-queried from the
host; `ungrouped` = the unpinned tabs whose id was not collected from any
group's member query. -/
def classifyTabs (s : HostState) (tabs : List Tab) (windowId : Nat) : ClassifiedTabs :=
  let pinned := tabs.filter (fun t => t.pinned)
  let unpinned := tabs.filter (fun t => !t.pinned)
  let groups := tabGroupsQuery s windowId
  let grouped := groups.map (fun g => GroupedTabs.mk g (tabsQueryGroup s windowId g.id))
  let groupedTabIds := (grouped.map (fun gt => gt.tabs.map (fun t => t.id))).flatten
  let ungrouped := unpinned.filter (fun t => !(groupedTabIds.contains t.id))
  ⟨pinned, grouped, ungrouped⟩

/-- `migratePinnedTabs(tabs, targetWindowId)`: move each pinned tab to index 0
of the target window; on success re-assert the pinned attribute, swallowing a
failure of the re-assert. -/
def migratePinnedTabs : List Tab → Nat → Eff → Eff
  | [], _, e => e
  | t :: ts, tgt, e =>
    let m := safeMove t.id tgt TAB_POSITION_START e
    let e2 := if m.1 then (chromeTabsUpdatePinned t.id true m.2).2 else m.2
    migratePinnedTabs ts tgt e2

/-- `recreateGroup(group, tabs, targetWindowId)`: batch-move the member tabs,
then (inside a try/catch) create a new group from them and re-apply the
original title, color and collapsed flag. -/
def recreateGroup (group : TabGroup) (tabs : List Tab) (tgt : Nat) (e : Eff) : Eff :=
  let tabIds := tabs.map (fun t => t.id)
  let m := safeMoveMultiple tabIds tgt e
  if !m.1 then m.2
  else
    match chromeTabsGroup tabIds tgt m.2 with
    | (some newGroupId, e2) =>
      (chromeTabGroupsUpdate newGroupId group.title group.color group.collapsed e2).2
    | (none, e2) => e2

/-- `migrateTabGroups(groupedTabs, targetWindowId)`: skip empty groups; try the
whole-group move first and fall back to `recreateGroup` exactly when it
fails. -/
def migrateTabGroups : List GroupedTabs → Nat → Eff → Eff
  | [], _, e => e
  | gt :: rest, tgt, e =>
    if gt.tabs = [] then migrateTabGroups rest tgt e
    else
      let m := safeMoveGroup gt.group.id tgt e
      let e2 := if m.1 then m.2 else recreateGroup gt.group gt.tabs tgt m.2
      migrateTabGroups rest tgt e2

/-- The individual-move fallback loop of `migrateTabs` (`safeMove` with its
default index, the end of the strip). -/
def migrateTabsOneByOne : List Nat → Nat → Eff → Eff
  | [], _, e => e
  | tid :: rest, tgt, e => migrateTabsOneByOne rest tgt (safeMove tid tgt TAB_POSITION_END e).2

/-- `migrateTabs(tabIds, targetWindowId)`: nothing to do on an empty list;
otherwise one batch move, falling back to individual moves exactly when the
batch is rejected. -/
def migrateTabs (tabIds : List Nat) (tgt : Nat) (e : Eff) : Eff :=
  if tabIds = [] then e
  else
    let m := safeMoveMultiple tabIds tgt e
    if m.1 then m.2 else migrateTabsOneByOne tabIds tgt m.2

/-- `migrateWindow(sourceWindowId, targetWindowId)`: skip an empty window,
otherwise classify and run the three phases in order. -/
def migrateWindow (src tgt : Nat) (e : Eff) : Eff :=
  let tabs := tabsQuery e.state src
  if tabs = [] then e
  else
    let c := classifyTabs e.state tabs src
    let e1 := migratePinnedTabs c.pinned tgt e
    let e2 := migrateTabGroups c.grouped tgt e1
    migrateTabs (c.ungrouped.map (fun t => t.id)) tgt e2

/-- `getSourceWindows(targetWindowId)`: resolve the target window (a host
rejection here aborts the merge, hence the `Option`), then keep the normal
windows other than the target with the target's incognito flag that are not in
the PWA exclusion registry. -/
def getSourceWindows (s : HostState) (pwaWindowIds : List Nat) (targetWindowId : Nat) :
    Option (List Window) :=
  match windowsGet s targetWindowId with
  | none => none
  | some targetWindow =>
    some ((windowsGetAllNormal s).filter (fun w =>
      w.id != targetWindowId && w.incognito == targetWindow.incognito
        && !(pwaWindowIds.contains w.id)))

/-- The `for (const window of sourceWindows)` loop of `executeMerge`. -/
def migrateWindows : List Window → Nat → Eff → Eff
  | [], _, e => e
  | w :: ws, tgt, e => migrateWindows ws tgt (migrateWindow w.id tgt e)

/-- `executeMerge(targetWindowId)`: resolve the source windows and migrate them
one after the other; a failure to resolve is caught at the top level and the
merge does nothing. -/
def executeMerge (targetWindowId : Nat) (pwaWindowIds : List Nat) (e : Eff) : Eff :=
  match getSourceWindows e.state pwaWindowIds targetWindowId with
  | none => e
  | some sourceWindows => migrateWindows sourceWindows targetWindowId e

/- ============================================================
   PWA exclusion registry (the `pwaWindowIds` Set and its listeners).
   ============================================================ -/

/-- `Set.prototype.add`: insert if absent (JS sets keep insertion order). -/
def setAdd (s : List Nat) (x : Nat) : List Nat :=
  if x ∈ s then s else s ++ [x]

/-- `Set.prototype.delete`. -/
def setDelete (s : List Nat) (x : Nat) : List Nat :=
  s.filter (fun y => y != x)

/-- The tab a runtime message was sent from, as far as the listener reads it. -/
structure SenderTab where
  windowId : Nat
deriving DecidableEq, Repr

/-- `sender` of a runtime message: `sender.tab` is absent when the message did
not originate from a page tab. -/
structure MessageSender where
  tab : Option SenderTab
deriving DecidableEq, Repr

/-- A runtime message as the listener reads it. -/
structure RuntimeMessage where
  msgType : String
  url : String
deriving DecidableEq, Repr

/-- The `chrome.runtime.onMessage` listener: on a `PWA_DETECTED` message from a
page tab, add that tab's window id to the registry. -/
def onMessageListener (message : RuntimeMessage) (sender : MessageSender)
    (pwaWindowIds : List Nat) : List Nat :=
  match sender.tab with
  | some tab =>
    if message.msgType = "PWA_DETECTED" then setAdd pwaWindowIds tab.windowId
    else pwaWindowIds
  | none => pwaWindowIds

/-- The `chrome.windows.onRemoved` listener: drop the closed window's id. -/
def onRemovedListener (windowId : Nat) (pwaWindowIds : List Nat) : List Nat :=
  setDelete pwaWindowIds windowId

/- ============================================================
   Helper lemmas: traces only grow, one recorded call per primitive.
   ============================================================ -/

theorem hostCall_trace (c : Call) (upd : HostState → HostState) (e : Eff) :
    ((hostCall c upd e).2).trace = e.trace ++ [c] := by
  unfold hostCall takeOracle
  cases h : e.oracle with
  | nil => simp
  | cons b rest => cases b <;> simp

theorem chromeTabsGroup_trace (tabIds : List Nat) (w : Nat) (e : Eff) :
    ((chromeTabsGroup tabIds w e).2).trace = e.trace ++ [Call.groupTabs tabIds w] := by
  unfold chromeTabsGroup takeOracle
  cases h : e.oracle with
  | nil => simp
  | cons b rest => cases b <;> simp

theorem safeMove_trace (tabId w : Nat) (i : Int) (e : Eff) :
    ((safeMove tabId w i e).2).trace = e.trace ++ [Call.moveTab tabId w i] :=
  hostCall_trace _ _ e

theorem safeMoveMultiple_trace (tabIds : List Nat) (w : Nat) (e : Eff) :
    ((safeMoveMultiple tabIds w e).2).trace = e.trace ++ [Call.moveTabs tabIds w] :=
  hostCall_trace _ _ e

theorem safeMoveGroup_trace (gid w : Nat) (e : Eff) :
    ((safeMoveGroup gid w e).2).trace = e.trace ++ [Call.moveGroup gid w TAB_POSITION_END] :=
  hostCall_trace _ _ e

theorem chromeTabsUpdatePinned_trace (tabId : Nat) (pin : Bool) (e : Eff) :
    ((chromeTabsUpdatePinned tabId pin e).2).trace = e.trace ++ [Call.updatePinned tabId pin] :=
  hostCall_trace _ _ e

theorem chromeTabGroupsUpdate_trace (gid : Nat) (title : String) (color : Nat)
    (collapsed : Bool) (e : Eff) :
    ((chromeTabGroupsUpdate gid title color collapsed e).2).trace
      = e.trace ++ [Call.updateGroup gid title color collapsed] :=
  hostCall_trace _ _ e

theorem trace_extend {e1 e2 e3 : Eff} {d1 d2 : List Call}
    (h1 : e2.trace = e1.trace ++ d1) (h2 : e3.trace = e2.trace ++ d2) :
    ∃ d, e3.trace = e1.trace ++ d :=
  ⟨d1 ++ d2, by rw [h2, h1, List.append_assoc]⟩

theorem migratePinnedTabs_trace : ∀ (ts : List Tab) (tgt : Nat) (e : Eff),
    ∃ d, (migratePinnedTabs ts tgt e).trace = e.trace ++ d
  | [], _, e => ⟨[], by simp [migratePinnedTabs]⟩
  | t :: ts, tgt, e => by
    have h1 : ∃ d1, ((if (safeMove t.id tgt TAB_POSITION_START e).1
        then (chromeTabsUpdatePinned t.id true (safeMove t.id tgt TAB_POSITION_START e).2).2
        else (safeMove t.id tgt TAB_POSITION_START e).2) : Eff).trace = e.trace ++ d1 := by
      cases hb : (safeMove t.id tgt TAB_POSITION_START e).1 with
      | false =>
        exact ⟨[Call.moveTab t.id tgt TAB_POSITION_START],
          safeMove_trace t.id tgt TAB_POSITION_START e⟩
      | true =>
        refine ⟨[Call.moveTab t.id tgt TAB_POSITION_START, Call.updatePinned t.id true], ?_⟩
        show ((chromeTabsUpdatePinned t.id true (safeMove t.id tgt TAB_POSITION_START e).2).2).trace = _
        rw [chromeTabsUpdatePinned_trace, safeMove_trace, List.append_assoc]
        rfl
    obtain ⟨d1, h1⟩ := h1
    obtain ⟨d2, h2⟩ := migratePinnedTabs_trace ts tgt
      (if (safeMove t.id tgt TAB_POSITION_START e).1
        then (chromeTabsUpdatePinned t.id true (safeMove t.id tgt TAB_POSITION_START e).2).2
        else (safeMove t.id tgt TAB_POSITION_START e).2)
    exact trace_extend h1 h2

theorem migrateTabsOneByOne_trace : ∀ (tabIds : List Nat) (tgt : Nat) (e : Eff),
    (migrateTabsOneByOne tabIds tgt e).trace
      = e.trace ++ tabIds.map (fun tid => Call.moveTab tid tgt TAB_POSITION_END)
  | [], _, e => by simp [migrateTabsOneByOne]
  | tid :: rest, tgt, e => by
    show (migrateTabsOneByOne rest tgt _).trace = _
    rw [migrateTabsOneByOne_trace rest tgt _, safeMove_trace, List.append_assoc]
    rfl

theorem migrateTabs_trace (tabIds : List Nat) (tgt : Nat) (e : Eff) :
    ∃ d, (migrateTabs tabIds tgt e).trace = e.trace ++ d := by
  unfold migrateTabs
  by_cases h : tabIds = []
  · exact ⟨[], by simp [h]⟩
  · simp only [h, if_false]
    cases hb : (safeMoveMultiple tabIds tgt e).1 with
    | true =>
      exact ⟨[Call.moveTabs tabIds tgt], safeMoveMultiple_trace tabIds tgt e⟩
    | false =>
      refine ⟨Call.moveTabs tabIds tgt
        :: tabIds.map (fun tid => Call.moveTab tid tgt TAB_POSITION_END), ?_⟩
      show (migrateTabsOneByOne tabIds tgt (safeMoveMultiple tabIds tgt e).2).trace = _
      rw [migrateTabsOneByOne_trace, safeMoveMultiple_trace, List.append_assoc]
      rfl

theorem recreateGroup_trace (g : TabGroup) (tabs : List Tab) (tgt : Nat) (e : Eff) :
    ∃ d, (recreateGroup g tabs tgt e).trace = e.trace ++ d := by
  show ∃ d, ((if (!(safeMoveMultiple (tabs.map (fun t => t.id)) tgt e).1) = true
      then (safeMoveMultiple (tabs.map (fun t => t.id)) tgt e).2
      else match chromeTabsGroup (tabs.map (fun t => t.id)) tgt
          (safeMoveMultiple (tabs.map (fun t => t.id)) tgt e).2 with
        | (some newGroupId, e2) =>
          (chromeTabGroupsUpdate newGroupId g.title g.color g.collapsed e2).2
        | (none, e2) => e2) : Eff).trace = e.trace ++ d
  cases hb : (safeMoveMultiple (tabs.map (fun t => t.id)) tgt e).1 with
  | false =>
    refine ⟨[Call.moveTabs (tabs.map (fun (t : Tab) => t.id)) tgt], ?_⟩
    show ((safeMoveMultiple (tabs.map (fun (t : Tab) => t.id)) tgt e).2).trace = _
    exact safeMoveMultiple_trace (tabs.map (fun (t : Tab) => t.id)) tgt e
  | true =>
    show ∃ d, (match chromeTabsGroup (tabs.map (fun (t : Tab) => t.id)) tgt
        (safeMoveMultiple (tabs.map (fun (t : Tab) => t.id)) tgt e).2 with
      | (some newGroupId, e2) =>
        (chromeTabGroupsUpdate newGroupId g.title g.color g.collapsed e2).2
      | (none, e2) => e2).trace = e.trace ++ d
    rcases hcg : chromeTabsGroup (tabs.map (fun t => t.id)) tgt
        (safeMoveMultiple (tabs.map (fun t => t.id)) tgt e).2 with ⟨og, e2⟩
    have he2 : e2.trace = e.trace ++ ([Call.moveTabs (tabs.map (fun t => t.id)) tgt]
        ++ [Call.groupTabs (tabs.map (fun t => t.id)) tgt]) := by
      have h1 := chromeTabsGroup_trace (tabs.map (fun t => t.id)) tgt
        (safeMoveMultiple (tabs.map (fun t => t.id)) tgt e).2
      rw [hcg] at h1
      rw [h1, safeMoveMultiple_trace, List.append_assoc]
    rw [hcg]
    cases og with
    | none => exact ⟨_, he2⟩
    | some ngid =>
      refine ⟨[Call.moveTabs (tabs.map (fun t => t.id)) tgt,
              Call.groupTabs (tabs.map (fun t => t.id)) tgt,
              Call.updateGroup ngid g.title g.color g.collapsed], ?_⟩
      show ((chromeTabGroupsUpdate ngid g.title g.color g.collapsed e2).2).trace = _
      rw [chromeTabGroupsUpdate_trace, he2]
      simp [List.append_assoc]

theorem migrateTabGroups_trace : ∀ (gts : List GroupedTabs) (tgt : Nat) (e : Eff),
    ∃ d, (migrateTabGroups gts tgt e).trace = e.trace ++ d
  | [], _, e => ⟨[], by simp [migrateTabGroups]⟩
  | gt :: rest, tgt, e => by
    by_cases hempty : gt.tabs = []
    · obtain ⟨d, hd⟩ := migrateTabGroups_trace rest tgt e
      refine ⟨d, ?_⟩
      have hskip : migrateTabGroups (gt :: rest) tgt e = migrateTabGroups rest tgt e := by
        simp only [migrateTabGroups]
        rw [if_pos hempty]
      rw [hskip]
      exact hd
    · have hunfold : migrateTabGroups (gt :: rest) tgt e
          = migrateTabGroups rest tgt (if (safeMoveGroup gt.group.id tgt e).1
              then (safeMoveGroup gt.group.id tgt e).2
              else recreateGroup gt.group gt.tabs tgt (safeMoveGroup gt.group.id tgt e).2) := by
        simp only [migrateTabGroups]
        rw [if_neg hempty]
      have h1 : ∃ d1, ((if (safeMoveGroup gt.group.id tgt e).1
          then (safeMoveGroup gt.group.id tgt e).2
          else recreateGroup gt.group gt.tabs tgt (safeMoveGroup gt.group.id tgt e).2) : Eff).trace
          = e.trace ++ d1 := by
        cases hb : (safeMoveGroup gt.group.id tgt e).1 with
        | true =>
          exact ⟨[Call.moveGroup gt.group.id tgt TAB_POSITION_END],
            safeMoveGroup_trace gt.group.id tgt e⟩
        | false =>
          obtain ⟨d0, h0⟩ := recreateGroup_trace gt.group gt.tabs tgt (safeMoveGroup gt.group.id tgt e).2
          refine ⟨[Call.moveGroup gt.group.id tgt TAB_POSITION_END] ++ d0, ?_⟩
          show (recreateGroup gt.group gt.tabs tgt (safeMoveGroup gt.group.id tgt e).2).trace = _
          rw [h0, safeMoveGroup_trace, List.append_assoc]
      obtain ⟨d1, h1⟩ := h1
      obtain ⟨d2, h2⟩ := migrateTabGroups_trace rest tgt
        (if (safeMoveGroup gt.group.id tgt e).1
          then (safeMoveGroup gt.group.id tgt e).2
          else recreateGroup gt.group gt.tabs tgt (safeMoveGroup gt.group.id tgt e).2)
      rw [hunfold]
      exact trace_extend h1 h2

/- ============================================================
   C9: idempotence of the exclusion registry insert.
   ============================================================ -/

theorem setAdd_idem (s : List Nat) (x : Nat) : setAdd (setAdd s x) x = setAdd s x := by
  by_cases h : x ∈ s <;> simp [setAdd, h]

/-- C9: marking the same window identifier excluded twice (two deliveries of the
same `PWA_DETECTED` message) leaves the exclusion registry in the same state as
marking it once, for every window identifier and every prior registry state. -/
theorem claim_C9 (message : RuntimeMessage) (sender : MessageSender) (pwa : List Nat) :
    onMessageListener message sender (onMessageListener message sender pwa)
      = onMessageListener message sender pwa := by
  unfold onMessageListener
  cases sender.tab with
  | none => rfl
  | some tab =>
    by_cases h : message.msgType = "PWA_DETECTED"
    · simp [h, setAdd_idem]
    · simp [h]

/- ============================================================
   C8: an empty source window causes no mutating call and no state change.
   ============================================================ -/

/-- C8: for a source window whose tab set is empty, `migrateWindow` returns the
world unchanged: same host state and same trace, so no mutating host primitive
was called. -/
theorem claim_C8 (src tgt : Nat) (e : Eff) (h : tabsQuery e.state src = []) :
    migrateWindow src tgt e = e := by
  simp only [migrateWindow]
  rw [if_pos h]

theorem claim_C8_witness :
    tabsQuery (HostState.mk [] [] [] 0) 1 = []
      ∧ migrateWindow 1 2 (Eff.mk (HostState.mk [] [] [] 0) [] [])
          = Eff.mk (HostState.mk [] [] [] 0) [] [] :=
  ⟨rfl, claim_C8 1 2 (Eff.mk (HostState.mk [] [] [] 0) [] []) rfl⟩

/- ============================================================
   C6: Phase C — batch first, individual moves exactly on batch failure.
   ============================================================ -/

/-- C6: in Phase C an empty ungrouped collection issues no call at all; a
non-empty collection is first attempted as one batch move to the end of the
target window, and the per-tab individual moves happen if and only if the
batch move fails. -/
theorem claim_C6 (tabIds : List Nat) (tgt : Nat) (e : Eff) (hne : tabIds ≠ []) :
    (migrateTabs [] tgt e = e) ∧
    (∀ o, e.oracle = true :: o →
      migrateTabs tabIds tgt e =
        { state := moveTabsState e.state tabIds tgt, oracle := o,
          trace := e.trace ++ [Call.moveTabs tabIds tgt] }) ∧
    (∀ o, e.oracle = false :: o →
      migrateTabs tabIds tgt e =
        migrateTabsOneByOne tabIds tgt
          { state := e.state, oracle := o, trace := e.trace ++ [Call.moveTabs tabIds tgt] } ∧
      (migrateTabs tabIds tgt e).trace =
        e.trace ++ Call.moveTabs tabIds tgt
          :: tabIds.map (fun tid => Call.moveTab tid tgt TAB_POSITION_END)) := by
  obtain ⟨s, o0, tr⟩ := e
  refine ⟨rfl, ?_, ?_⟩
  · intro o ho
    change o0 = true :: o at ho
    subst ho
    unfold migrateTabs
    rw [if_neg hne]
    exact rfl
  · intro o ho
    change o0 = false :: o at ho
    subst ho
    have heq : migrateTabs tabIds tgt (Eff.mk s (false :: o) tr) =
        migrateTabsOneByOne tabIds tgt
          (Eff.mk s o (tr ++ [Call.moveTabs tabIds tgt])) := by
      unfold migrateTabs
      rw [if_neg hne]
      exact rfl
    refine ⟨heq, ?_⟩
    rw [heq, migrateTabsOneByOne_trace]
    simp

theorem claim_C6_witness :
    ([7] : List Nat) ≠ [] ∧
      (migrateTabs [7] 1 (Eff.mk (HostState.mk [] [] [] 0) [false] [])).trace
        = [Call.moveTabs [7] 1, Call.moveTab 7 1 TAB_POSITION_END] :=
  ⟨by decide,
   ((claim_C6 [7] 1 (Eff.mk (HostState.mk [] [] [] 0) [false] []) (by decide)).2.2 [] rfl).2⟩

/- ============================================================
   C5: Phase B — direct group move first, recreate exactly on failure,
   batch failure abandons the group without aborting the merge.
   ============================================================ -/

theorem migrateTabGroups_cons (gt : GroupedTabs) (rest : List GroupedTabs) (tgt : Nat)
    (e : Eff) (hne : gt.tabs ≠ []) :
    migrateTabGroups (gt :: rest) tgt e
      = migrateTabGroups rest tgt (if (safeMoveGroup gt.group.id tgt e).1
          then (safeMoveGroup gt.group.id tgt e).2
          else recreateGroup gt.group gt.tabs tgt (safeMoveGroup gt.group.id tgt e).2) := by
  simp only [migrateTabGroups]
  rw [if_neg hne]

/-- C5: in Phase B a group with no member tabs is skipped without any call;
for a group with members the whole-group move is attempted first; the recreate
fallback runs if and only if that move fails; and when the fallback's batch
move also fails the host state is left unchanged (the group's tabs remain in
the source window) while processing continues with the remaining groups. -/
theorem claim_C5 (gt : GroupedTabs) (rest : List GroupedTabs) (tgt : Nat) (e : Eff)
    (hne : gt.tabs ≠ []) :
    (∀ g0, migrateTabGroups (GroupedTabs.mk g0 [] :: rest) tgt e
        = migrateTabGroups rest tgt e) ∧
    (∀ o, e.oracle = true :: o →
      migrateTabGroups (gt :: rest) tgt e =
        migrateTabGroups rest tgt
          { state := moveGroupState e.state gt.group.id tgt, oracle := o,
            trace := e.trace ++ [Call.moveGroup gt.group.id tgt TAB_POSITION_END] }) ∧
    (∀ o, e.oracle = false :: o →
      migrateTabGroups (gt :: rest) tgt e =
        migrateTabGroups rest tgt
          (recreateGroup gt.group gt.tabs tgt
            { state := e.state, oracle := o,
              trace := e.trace ++ [Call.moveGroup gt.group.id tgt TAB_POSITION_END] })) ∧
    (∀ o, e.oracle = false :: false :: o →
      migrateTabGroups (gt :: rest) tgt e =
        migrateTabGroups rest tgt
          { state := e.state, oracle := o,
            trace := e.trace ++ [Call.moveGroup gt.group.id tgt TAB_POSITION_END]
              ++ [Call.moveTabs (gt.tabs.map (fun t => t.id)) tgt] }) := by
  obtain ⟨s, o0, tr⟩ := e
  refine ⟨fun g0 => rfl, ?_, ?_, ?_⟩
  · intro o ho
    change o0 = true :: o at ho
    subst ho
    rw [migrateTabGroups_cons gt rest tgt _ hne]
    exact congrArg (migrateTabGroups rest tgt) rfl
  · intro o ho
    change o0 = false :: o at ho
    subst ho
    rw [migrateTabGroups_cons gt rest tgt _ hne]
    exact congrArg (migrateTabGroups rest tgt) rfl
  · intro o ho
    change o0 = false :: false :: o at ho
    subst ho
    rw [migrateTabGroups_cons gt rest tgt _ hne]
    exact congrArg (migrateTabGroups rest tgt) rfl

theorem claim_C5_witness :
    (GroupedTabs.mk (TabGroup.mk 5 2 "" 0 false) [Tab.mk 9 false (some 5)]).tabs ≠ [] ∧
      migrateTabGroups [GroupedTabs.mk (TabGroup.mk 5 2 "" 0 false) [Tab.mk 9 false (some 5)]] 1
          (Eff.mk (HostState.mk [] [] [] 0) [false, false] [])
        = migrateTabGroups [] 1
            (Eff.mk (HostState.mk [] [] [] 0) []
              [Call.moveGroup 5 1 TAB_POSITION_END, Call.moveTabs [9] 1]) :=
  ⟨by decide,
   (claim_C5 (GroupedTabs.mk (TabGroup.mk 5 2 "" 0 false) [Tab.mk 9 false (some 5)]) [] 1
      (Eff.mk (HostState.mk [] [] [] 0) [false, false] []) (by decide)).2.2.2 [] rfl⟩

/- ============================================================
   C3: source-window selection.
   ============================================================ -/

/-- C3: when the target window resolves, the selected source windows are
exactly the normal-type windows other than the target whose incognito flag
equals the target's and whose identifier is not in the exclusion registry;
consequently every selected source matches the target's incognito flag and no
excluded window is ever selected. -/
theorem claim_C3 (s : HostState) (pwa : List Nat) (tgtId : Nat) (tw : Window)
    (srcs : List Window)
    (hget : windowsGet s tgtId = some tw)
    (hres : getSourceWindows s pwa tgtId = some srcs) :
    (∀ w : Window, w ∈ srcs ↔ (w ∈ s.windows ∧ w.wtype = WindowType.normal ∧ w.id ≠ tgtId
      ∧ w.incognito = tw.incognito ∧ w.id ∉ pwa)) ∧
    (∀ w ∈ srcs, w.incognito = tw.incognito) ∧
    (∀ w ∈ srcs, w.id ∉ pwa) := by
  have hval : getSourceWindows s pwa tgtId = some ((windowsGetAllNormal s).filter (fun w =>
      w.id != tgtId && w.incognito == tw.incognito && !(pwa.contains w.id))) := by
    simp only [getSourceWindows, hget]
  rw [hval] at hres
  have hsrcs := Option.some.inj hres
  have hmem : ∀ w : Window, w ∈ srcs ↔ (w ∈ s.windows ∧ w.wtype = WindowType.normal
      ∧ w.id ≠ tgtId ∧ w.incognito = tw.incognito ∧ w.id ∉ pwa) := by
    intro w
    rw [← hsrcs]
    simp only [windowsGetAllNormal, List.mem_filter, Bool.and_eq_true, bne_iff_ne,
      beq_iff_eq, Bool.not_eq_true', ← Bool.not_eq_true, List.elem_iff]
    tauto
  exact ⟨hmem, fun w hw => ((hmem w).mp hw).2.2.2.1, fun w hw => ((hmem w).mp hw).2.2.2.2⟩

theorem claim_C3_witness :
    (Window.mk 2 false WindowType.normal).incognito
      = (Window.mk 1 false WindowType.normal).incognito :=
  (claim_C3
    (HostState.mk [Window.mk 1 false WindowType.normal, Window.mk 2 false WindowType.normal,
      Window.mk 3 true WindowType.normal, Window.mk 4 false WindowType.popup,
      Window.mk 5 false WindowType.normal] [] [] 0)
    [5] 1 (Window.mk 1 false WindowType.normal)
    [Window.mk 2 false WindowType.normal]
    (by decide) (by decide)).2.1 (Window.mk 2 false WindowType.normal) (by decide)

/- ============================================================
   C7: sequential windows, fixed phase order.
   ============================================================ -/

theorem migrateWindows_append : ∀ (ws1 ws2 : List Window) (tgt : Nat) (e : Eff),
    migrateWindows (ws1 ++ ws2) tgt e = migrateWindows ws2 tgt (migrateWindows ws1 tgt e)
  | [], _, _, _ => rfl
  | w :: ws1, ws2, tgt, e => migrateWindows_append ws1 ws2 tgt (migrateWindow w.id tgt e)

theorem migrateWindow_phases (src tgt : Nat) (e : Eff) (h : tabsQuery e.state src ≠ []) :
    migrateWindow src tgt e
      = migrateTabs (((classifyTabs e.state (tabsQuery e.state src) src).ungrouped).map
            (fun t => t.id)) tgt
          (migrateTabGroups (classifyTabs e.state (tabsQuery e.state src) src).grouped tgt
            (migratePinnedTabs (classifyTabs e.state (tabsQuery e.state src) src).pinned tgt e)) := by
  simp only [migrateWindow]
  rw [if_neg h]

/-- C7: source windows are processed strictly sequentially (migrating a
concatenation of source lists equals migrating the first list and then the
second from the resulting world), and a non-empty source window runs exactly
the three phases pinned → groups → ungrouped, each phase only appending its
calls to the trace after the previous phase's calls. -/
theorem claim_C7 (ws1 ws2 : List Window) (src tgt : Nat) (e : Eff)
    (h : tabsQuery e.state src ≠ []) :
    (migrateWindows (ws1 ++ ws2) tgt e = migrateWindows ws2 tgt (migrateWindows ws1 tgt e)) ∧
    (∃ dA dB dC,
      migrateWindow src tgt e
        = migrateTabs (((classifyTabs e.state (tabsQuery e.state src) src).ungrouped).map
              (fun t => t.id)) tgt
            (migrateTabGroups (classifyTabs e.state (tabsQuery e.state src) src).grouped tgt
              (migratePinnedTabs (classifyTabs e.state (tabsQuery e.state src) src).pinned tgt e))
      ∧ (migratePinnedTabs (classifyTabs e.state (tabsQuery e.state src) src).pinned tgt e).trace
          = e.trace ++ dA
      ∧ (migrateTabGroups (classifyTabs e.state (tabsQuery e.state src) src).grouped tgt
            (migratePinnedTabs (classifyTabs e.state (tabsQuery e.state src) src).pinned tgt e)).trace
          = e.trace ++ dA ++ dB
      ∧ (migrateWindow src tgt e).trace = e.trace ++ dA ++ dB ++ dC) := by
  refine ⟨migrateWindows_append ws1 ws2 tgt e, ?_⟩
  obtain ⟨dA, hA⟩ := migratePinnedTabs_trace
    (classifyTabs e.state (tabsQuery e.state src) src).pinned tgt e
  obtain ⟨dB, hB⟩ := migrateTabGroups_trace
    (classifyTabs e.state (tabsQuery e.state src) src).grouped tgt
    (migratePinnedTabs (classifyTabs e.state (tabsQuery e.state src) src).pinned tgt e)
  obtain ⟨dC, hC⟩ := migrateTabs_trace
    (((classifyTabs e.state (tabsQuery e.state src) src).ungrouped).map (fun t => t.id)) tgt
    (migrateTabGroups (classifyTabs e.state (tabsQuery e.state src) src).grouped tgt
      (migratePinnedTabs (classifyTabs e.state (tabsQuery e.state src) src).pinned tgt e))
  refine ⟨dA, dB, dC, migrateWindow_phases src tgt e h, hA, ?_, ?_⟩
  · rw [hB, hA]
  · rw [migrateWindow_phases src tgt e h, hC, hB, hA]

theorem claim_C7_witness :
    migrateWindows ([Window.mk 2 false WindowType.normal] ++ []) 1
        (Eff.mk (HostState.mk
          [Window.mk 1 false WindowType.normal, Window.mk 2 false WindowType.normal]
          [(2, Tab.mk 10 false none)] [] 0) [] [])
      = migrateWindows [] 1
          (migrateWindows [Window.mk 2 false WindowType.normal] 1
            (Eff.mk (HostState.mk
              [Window.mk 1 false WindowType.normal, Window.mk 2 false WindowType.normal]
              [(2, Tab.mk 10 false none)] [] 0) [] [])) :=
  (claim_C7 [Window.mk 2 false WindowType.normal] [] 2 1
    (Eff.mk (HostState.mk
      [Window.mk 1 false WindowType.normal, Window.mk 2 false WindowType.normal]
      [(2, Tab.mk 10 false none)] [] 0) [] []) (by decide)).1

/- ============================================================
   C1: the classifier's partition.
   ============================================================ -/

/-- C1 counterexample: on a window holding a single tab that is both pinned
and a member of a group, the classifier places the tab in the pinned part AND
in that group's member list, so the three parts are not pairwise disjoint and
a pinned group member does appear in a group's member list, contrary to the
claim as stated. -/
theorem claim_C1_counterexample :
    Tab.mk 1 true (some 10) ∈ (classifyTabs
      (HostState.mk [] [(5, Tab.mk 1 true (some 10))] [TabGroup.mk 10 5 "" 0 false] 0)
      (tabsQuery (HostState.mk [] [(5, Tab.mk 1 true (some 10))]
        [TabGroup.mk 10 5 "" 0 false] 0) 5) 5).pinned
    ∧ ∃ gt ∈ (classifyTabs
      (HostState.mk [] [(5, Tab.mk 1 true (some 10))] [TabGroup.mk 10 5 "" 0 false] 0)
      (tabsQuery (HostState.mk [] [(5, Tab.mk 1 true (some 10))]
        [TabGroup.mk 10 5 "" 0 false] 0) 5) 5).grouped,
      Tab.mk 1 true (some 10) ∈ gt.tabs := by
  decide

/-- C1 (amended): the classifier's three parts cover the window's tab set and
are each contained in it; the ungrouped part is disjoint from the pinned part
and from every group's member list; and a pinned tab that belongs to no group
appears in no group's member list.  However a tab that is both pinned and a
group member is placed in the pinned part while still appearing in its group's
member list, so pinned precedence holds only against the ungrouped part. -/
theorem claim_C1 (s : HostState) (w : Nat) (tabs : List Tab)
    (htabs : tabs = tabsQuery s w)
    (hnodup : (tabs.map (fun t => t.id)).Nodup) :
    (∀ t ∈ (classifyTabs s tabs w).pinned, t ∉ (classifyTabs s tabs w).ungrouped) ∧
    (∀ gt ∈ (classifyTabs s tabs w).grouped, ∀ t ∈ gt.tabs,
      t ∉ (classifyTabs s tabs w).ungrouped) ∧
    (∀ t ∈ tabs, t ∈ (classifyTabs s tabs w).pinned
      ∨ (∃ gt ∈ (classifyTabs s tabs w).grouped, t ∈ gt.tabs)
      ∨ t ∈ (classifyTabs s tabs w).ungrouped) ∧
    (∀ t ∈ (classifyTabs s tabs w).pinned, t ∈ tabs) ∧
    (∀ t ∈ (classifyTabs s tabs w).ungrouped, t ∈ tabs) ∧
    (∀ gt ∈ (classifyTabs s tabs w).grouped, ∀ t ∈ gt.tabs, t ∈ tabs) ∧
    (∀ t ∈ (classifyTabs s tabs w).pinned, t.groupId = none →
      ∀ gt ∈ (classifyTabs s tabs w).grouped, t ∉ gt.tabs) := by
  have hsub : ∀ g : TabGroup, ∀ x ∈ tabsQueryGroup s w g.id, x ∈ tabs := by
    intro g x hx
    rw [htabs]
    exact List.mem_of_mem_filter hx
  have hinj : ∀ x ∈ tabs, ∀ y ∈ tabs, x.id = y.id → x = y :=
    fun x hx y hy hxy => List.inj_on_of_nodup_map hnodup hx hy hxy
  refine ⟨?_, ?_, ?_, ?_, ?_, ?_, ?_⟩
  · intro t htp htu
    simp only [classifyTabs, List.mem_filter] at htp htu
    rw [htp.2] at htu
    simp at htu
  · intro gt hgt t htg htu
    simp only [classifyTabs, List.mem_map] at hgt
    obtain ⟨g, hg, rfl⟩ := hgt
    simp only [classifyTabs, List.mem_filter] at htu
    have : (((tabGroupsQuery s w).map
        (fun g => GroupedTabs.mk g (tabsQueryGroup s w g.id))).map
          (fun gt => gt.tabs.map (fun t => t.id))).flatten.contains t.id = true := by
      simp only [List.contains_eq_any_beq, List.any_eq_true, List.mem_flatten, List.mem_map]
      exact ⟨t.id, ⟨(tabsQueryGroup s w g.id).map (fun t => t.id),
        ⟨GroupedTabs.mk g (tabsQueryGroup s w g.id), ⟨⟨g, hg, rfl⟩, rfl⟩⟩,
        List.mem_map_of_mem _ htg⟩, by simp⟩
    rw [this] at htu
    simp at htu
  · intro t ht
    by_cases hp : t.pinned
    · left
      simp only [classifyTabs, List.mem_filter]
      exact ⟨ht, hp⟩
    · by_cases hm : (((tabGroupsQuery s w).map
          (fun g => GroupedTabs.mk g (tabsQueryGroup s w g.id))).map
            (fun gt => gt.tabs.map (fun t => t.id))).flatten.contains t.id = true
      · right; left
        simp only [List.contains_eq_any_beq, List.any_eq_true, List.mem_flatten,
          List.mem_map] at hm
        obtain ⟨i, ⟨ids, ⟨gt, ⟨g, hg, rfl⟩, rfl⟩, hi⟩, hbeq⟩ := hm
        simp only [List.mem_map] at hi
        obtain ⟨x, hx, rfl⟩ := hi
        have hxid : x.id = t.id := by have := hbeq; simp at this; exact this.symm
        have hxtabs : x ∈ tabs := hsub g x hx
        have hxt : x = t := hinj x hxtabs t ht hxid
        subst hxt
        refine ⟨GroupedTabs.mk g (tabsQueryGroup s w g.id), ?_, hx⟩
        simp only [classifyTabs, List.mem_map]
        exact ⟨g, hg, rfl⟩
      · right; right
        simp only [classifyTabs, List.mem_filter]
        refine ⟨⟨ht, by simp [hp]⟩, by simpa using hm⟩
  · intro t htp
    exact List.mem_of_mem_filter htp
  · intro t htu
    exact List.mem_of_mem_filter (List.mem_of_mem_filter htu)
  · intro gt hgt t htg
    simp only [classifyTabs, List.mem_map] at hgt
    obtain ⟨g, hg, rfl⟩ := hgt
    exact hsub g t htg
  · intro t htp hgid gt hgt htg
    simp only [classifyTabs, List.mem_map] at hgt
    obtain ⟨g, hg, rfl⟩ := hgt
    have := (List.mem_filter.mp htg).2
    rw [hgid] at this
    simp at this

theorem claim_C1_witness :
    Tab.mk 1 true (some 10) ∉ (classifyTabs
      (HostState.mk [] [(5, Tab.mk 1 true (some 10))] [TabGroup.mk 10 5 "" 0 false] 0)
      (tabsQuery (HostState.mk [] [(5, Tab.mk 1 true (some 10))]
        [TabGroup.mk 10 5 "" 0 false] 0) 5) 5).ungrouped :=
  (claim_C1
    (HostState.mk [] [(5, Tab.mk 1 true (some 10))] [TabGroup.mk 10 5 "" 0 false] 0)
    5
    (tabsQuery (HostState.mk [] [(5, Tab.mk 1 true (some 10))]
      [TabGroup.mk 10 5 "" 0 false] 0) 5)
    rfl (by decide)).1 (Tab.mk 1 true (some 10)) (by decide)

/- ============================================================
   C4: Phase A — pinned-tab migration and its degraded outcomes.
   ============================================================ -/

theorem find_id_eq_self : ∀ {l : List Tab}, ((l.map (fun t => t.id)).Nodup) →
    ∀ {t : Tab}, t ∈ l → l.find? (fun x => x.id == t.id) = some t := by
  intro l
  induction l with
  | nil => intro _ t ht; cases ht
  | cons a l ih =>
    intro hnodup t ht
    simp only [List.map_cons, List.nodup_cons] at hnodup
    rcases List.mem_cons.mp ht with rfl | hmem
    · simp [List.find?]
    · have hne : (a.id == t.id) = false := by
        simp only [beq_eq_false_iff_ne, ne_eq]
        intro h
        exact hnodup.1 (h ▸ List.mem_map_of_mem _ hmem)
      rw [List.find?_cons_of_neg _ (by simp [hne]), ih hnodup.2 hmem]

theorem insertFlat_perm (w : Nat) (t : Tab) : ∀ (i : Nat) (L : List (Nat × Tab)),
    (insertFlat w i t L).Perm ((w, t) :: L)
  | _, [] => List.Perm.refl _
  | i, p :: rest => by
    unfold insertFlat
    by_cases h1 : (p.1 == w) = true
    · rw [if_pos h1]
      by_cases h2 : (i == 0) = true
      · rw [if_pos h2]
      · rw [if_neg h2]
        exact ((insertFlat_perm w t (i - 1) rest).cons p).trans (List.Perm.swap (w, t) p rest)
    · rw [if_neg h1]
      exact ((insertFlat_perm w t i rest).cons p).trans (List.Perm.swap (w, t) p rest)

theorem placeFlat_perm (L : List (Nat × Tab)) (w : Nat) (index : Int) (t : Tab) :
    (placeFlat L w index t).Perm ((w, t) :: L) := by
  unfold placeFlat
  by_cases h : (index == -1) = true
  · rw [if_pos h]
    exact List.perm_append_singleton _ _
  · rw [if_neg h]
    exact insertFlat_perm w t index.toNat L

theorem migratePinnedTabs_cons (t : Tab) (ts : List Tab) (tgt : Nat) (e : Eff) :
    migratePinnedTabs (t :: ts) tgt e
      = migratePinnedTabs ts tgt (if (safeMove t.id tgt TAB_POSITION_START e).1
          then (chromeTabsUpdatePinned t.id true (safeMove t.id tgt TAB_POSITION_START e).2).2
          else (safeMove t.id tgt TAB_POSITION_START e).2) := rfl

theorem migratePinnedTabs_calls : ∀ (ts : List Tab) (tgt : Nat) (e : Eff),
    ∃ ms : List Bool, ms.length = ts.length ∧
      (migratePinnedTabs ts tgt e).trace = e.trace ++
        ((ts.zip ms).map (fun p => Call.moveTab p.1.id tgt TAB_POSITION_START
          :: (if p.2 then [Call.updatePinned p.1.id true] else []))).flatten
  | [], _, e => ⟨[], rfl, by simp [migratePinnedTabs]⟩
  | t :: ts, tgt, e => by
    rw [migratePinnedTabs_cons]
    by_cases hb : (safeMove t.id tgt TAB_POSITION_START e).1 = true
    · rw [if_pos hb]
      obtain ⟨ms, hlen, htr⟩ := migratePinnedTabs_calls ts tgt
        (chromeTabsUpdatePinned t.id true (safeMove t.id tgt TAB_POSITION_START e).2).2
      refine ⟨true :: ms, by simp [hlen], ?_⟩
      rw [htr, chromeTabsUpdatePinned_trace, safeMove_trace]
      simp [List.append_assoc]
    · rw [if_neg hb]
      obtain ⟨ms, hlen, htr⟩ := migratePinnedTabs_calls ts tgt
        (safeMove t.id tgt TAB_POSITION_START e).2
      refine ⟨false :: ms, by simp [hlen], ?_⟩
      rw [htr, safeMove_trace]
      simp [List.append_assoc]

/-- C4: in Phase A every pinned tab gets a move-to-index-0 attempt, and the
pinned attribute is re-asserted on a tab if and only if its move succeeded
(conjunct 1, over the whole pinned list); if the move fails the world is left
unchanged apart from the recorded rejected call, so the tab stays in its source
window and no re-assert is attempted (conjunct 2); if the move succeeds the tab
ends up in the target window with its pinned flag equal to the outcome of the
re-assert call — `true` when the re-assert succeeds, `false` (migrated but
unpinned, failure swallowed) when it fails (conjunct 3). -/
theorem claim_C4 (t : Tab) (ts : List Tab) (tgt : Nat) (e : Eff) (w0 : Nat)
    (hmem : (w0, t) ∈ e.state.tabs)
    (hids : ((allTabs e.state).map (fun x => x.id)).Nodup)
    (hwin : windowExists e.state tgt = true) :
    (∃ ms : List Bool, ms.length = ts.length ∧
      (migratePinnedTabs ts tgt e).trace = e.trace ++
        ((ts.zip ms).map (fun p => Call.moveTab p.1.id tgt TAB_POSITION_START
          :: (if p.2 then [Call.updatePinned p.1.id true] else []))).flatten) ∧
    (∀ o, e.oracle = false :: o →
      migratePinnedTabs [t] tgt e =
        { state := e.state, oracle := o,
          trace := e.trace ++ [Call.moveTab t.id tgt TAB_POSITION_START] }) ∧
    (∀ b o, e.oracle = true :: b :: o →
      (∃ t', (tgt, t') ∈ (migratePinnedTabs [t] tgt e).state.tabs
        ∧ t'.id = t.id ∧ t'.pinned = b) ∧
      (migratePinnedTabs [t] tgt e).trace = e.trace
        ++ [Call.moveTab t.id tgt TAB_POSITION_START] ++ [Call.updatePinned t.id true]) := by
  obtain ⟨s, o0, tr⟩ := e
  have htm : t ∈ allTabs s := List.mem_map_of_mem Prod.snd hmem
  have hfind : (allTabs s).find? (fun x => x.id == t.id) = some t :=
    find_id_eq_self hids htm
  have hms : moveTabState s t.id tgt TAB_POSITION_START
      = { s with tabs := (placeFlat (s.tabs.filter (fun p => p.2.id != t.id)) tgt
          TAB_POSITION_START (clearTab t)) } := by
    unfold moveTabState
    rw [if_pos hwin, hfind]
  refine ⟨migratePinnedTabs_calls ts tgt _, ?_, ?_⟩
  · intro o ho
    change o0 = false :: o at ho
    subst ho
    exact rfl
  · intro b o ho
    change o0 = true :: b :: o at ho
    subst ho
    have hplace : (tgt, clearTab t) ∈ placeFlat (s.tabs.filter (fun p => p.2.id != t.id)) tgt
        TAB_POSITION_START (clearTab t) :=
      (placeFlat_perm _ tgt TAB_POSITION_START (clearTab t)).mem_iff.mpr
        (List.mem_cons_self _ _)
    cases b with
    | false =>
      constructor
      · refine ⟨clearTab t, ?_, rfl, rfl⟩
        show (tgt, clearTab t) ∈ (moveTabState s t.id tgt TAB_POSITION_START).tabs
        rw [hms]
        exact hplace
      · exact rfl
    | true =>
      constructor
      · refine ⟨{ clearTab t with pinned := true }, ?_, rfl, rfl⟩
        show (tgt, { clearTab t with pinned := true })
          ∈ (updatePinnedState (moveTabState s t.id tgt TAB_POSITION_START) t.id true).tabs
        rw [hms]
        simp only [updatePinnedState]
        refine List.mem_map.mpr ⟨(tgt, clearTab t), hplace, ?_⟩
        simp [clearTab]
      · exact rfl

theorem claim_C4_witness :
    ∃ t', (1, t') ∈ (migratePinnedTabs [Tab.mk 7 true none] 1
        (Eff.mk (HostState.mk
          [Window.mk 1 false WindowType.normal, Window.mk 2 false WindowType.normal]
          [(2, Tab.mk 7 true none)] [] 0) [true, false] [])).state.tabs
      ∧ t'.id = (Tab.mk 7 true none).id ∧ t'.pinned = false :=
  ((claim_C4 (Tab.mk 7 true none) [] 1
    (Eff.mk (HostState.mk
      [Window.mk 1 false WindowType.normal, Window.mk 2 false WindowType.normal]
      [(2, Tab.mk 7 true none)] [] 0) [true, false] []) 2
    (by decide) (by decide) (by decide)).2.2 false [] rfl).1

/- ============================================================
   C10: successive moves to index 0 reverse the pinned tabs' order.
   ============================================================ -/

theorem filter_insertFlat_zero (w : Nat) (t : Tab) : ∀ L : List (Nat × Tab),
    List.filter (fun p => p.1 == w) (insertFlat w 0 t L)
      = (w, t) :: List.filter (fun p => p.1 == w) L
  | [] => by simp [insertFlat]
  | q :: rest => by
    simp only [insertFlat]
    by_cases h1 : (q.1 == w) = true
    · rw [if_pos h1]
      simp [List.filter_cons, h1]
    · rw [if_neg h1]
      simp [List.filter_cons, h1, filter_insertFlat_zero w t rest]

theorem strip_map_snd (w : Nat) (g : Tab → Tab) : ∀ L : List (Nat × Tab),
    List.filter (fun p => p.1 == w) (L.map (fun p => (p.1, g p.2)))
      = (List.filter (fun p => p.1 == w) L).map (fun p => (p.1, g p.2))
  | [] => rfl
  | q :: rest => by
    by_cases h : (q.1 == w) = true
    · simp [List.filter_cons, h, strip_map_snd w g rest]
    · simp [List.filter_cons, h, strip_map_snd w g rest]

theorem filter_strip_comm (w : Nat) (q : Tab → Bool) : ∀ L : List (Nat × Tab),
    List.filter (fun p => p.1 == w) (List.filter (fun p => q p.2) L)
      = List.filter (fun p => q p.2) (List.filter (fun p => p.1 == w) L)
  | [] => rfl
  | r :: rest => by
    by_cases h1 : (r.1 == w) = true <;> by_cases h2 : q r.2 = true <;>
      simp [List.filter_cons, h1, h2, filter_strip_comm w q rest]

theorem strip_ids_map_preserve (g : Tab → Tab) (hg : ∀ x, (g x).id = x.id) :
    ∀ L : List (Nat × Tab),
      ((L.map (fun p => (p.1, g p.2))).map Prod.snd).map (fun x => x.id)
        = (L.map Prod.snd).map (fun x => x.id)
  | [] => rfl
  | q :: rest => by simp [hg, strip_ids_map_preserve g hg rest]

theorem entry_ids_map_preserve (g : Tab → Tab) (hg : ∀ x, (g x).id = x.id) :
    ∀ L : List (Nat × Tab),
      (L.map (fun p => (p.1, g p.2))).map (fun p => p.2.id) = L.map (fun p => p.2.id)
  | [] => rfl
  | q :: rest => by simp [hg, entry_ids_map_preserve g hg rest]

theorem allTabs_ids (s : HostState) :
    (allTabs s).map (fun x => x.id) = s.tabs.map (fun p => p.2.id) := by
  simp [allTabs, List.map_map]

theorem moveTabState_windows (s : HostState) (tid w : Nat) (i : Int) :
    (moveTabState s tid w i).windows = s.windows := by
  unfold moveTabState
  by_cases h : windowExists s w = true
  · rw [if_pos h]
    cases hf : (allTabs s).find? (fun t => t.id == tid) with
    | none => rfl
    | some t => rfl
  · rw [if_neg h]

theorem pinnedStep_tabs (s : HostState) (t : Tab) (tgt : Nat)
    (hfind : (allTabs s).find? (fun x => x.id == t.id) = some t)
    (hwin : windowExists s tgt = true) :
    (updatePinnedState (moveTabState s t.id tgt TAB_POSITION_START) t.id true).tabs
      = (insertFlat tgt 0 (clearTab t) (s.tabs.filter (fun p => p.2.id != t.id))).map
          (fun p => (p.1, if p.2.id == t.id then { p.2 with pinned := true } else p.2)) := by
  unfold moveTabState
  rw [if_pos hwin, hfind]
  rfl

theorem pinnedStep_strip_ids (s : HostState) (t : Tab) (tgt : Nat)
    (hfind : (allTabs s).find? (fun x => x.id == t.id) = some t)
    (hwin : windowExists s tgt = true)
    (hnot : t.id ∉ (tabsQuery s tgt).map (fun x => x.id)) :
    (tabsQuery (updatePinnedState (moveTabState s t.id tgt TAB_POSITION_START) t.id true)
        tgt).map (fun x => x.id)
      = t.id :: (tabsQuery s tgt).map (fun x => x.id) := by
  have hg : ∀ x : Tab, ((if x.id == t.id then { x with pinned := true } else x) : Tab).id
      = x.id := by
    intro x
    by_cases h : (x.id == t.id) = true <;> simp [h]
  have hall : ∀ pr ∈ List.filter (fun p => p.1 == tgt) s.tabs, (pr.2.id != t.id) = true := by
    intro pr hpr
    simp only [bne_iff_ne, ne_eq]
    intro hid
    exact hnot (hid ▸ List.mem_map_of_mem (fun x => x.id)
      (List.mem_map_of_mem Prod.snd hpr))
  simp only [tabsQuery]
  rw [pinnedStep_tabs s t tgt hfind hwin]
  rw [strip_map_snd tgt (fun x => if x.id == t.id then { x with pinned := true } else x)]
  rw [filter_insertFlat_zero]
  rw [filter_strip_comm tgt (fun x => x.id != t.id)]
  rw [List.filter_eq_self.mpr hall]
  rw [List.map_cons, List.map_cons, List.map_cons]
  rw [show ((tgt, clearTab t).1, (fun x => if x.id == t.id then { x with pinned := true }
      else x) (tgt, clearTab t).2).2.id = t.id from by simp [clearTab]]
  rw [strip_ids_map_preserve (fun x => if x.id == t.id then { x with pinned := true } else x)
    hg (List.filter (fun p => p.1 == tgt) s.tabs)]

theorem pinnedStep_mem (s : HostState) (t : Tab) (tgt : Nat)
    (hfind : (allTabs s).find? (fun x => x.id == t.id) = some t)
    (hwin : windowExists s tgt = true)
    (p : Tab) (hp : p ∈ allTabs s) (hne : p.id ≠ t.id) :
    p ∈ allTabs (updatePinnedState (moveTabState s t.id tgt TAB_POSITION_START) t.id true) := by
  obtain ⟨pr, hpr, hsnd⟩ := List.mem_map.mp hp
  obtain ⟨w', x⟩ := pr
  simp only at hsnd
  subst hsnd
  have hF : (w', x) ∈ s.tabs.filter (fun q => q.2.id != t.id) :=
    List.mem_filter.mpr ⟨hpr, by simpa using hne⟩
  have hI : (w', x) ∈ insertFlat tgt 0 (clearTab t)
      (s.tabs.filter (fun q => q.2.id != t.id)) :=
    (insertFlat_perm tgt (clearTab t) 0 _).mem_iff.mpr (List.mem_cons_of_mem _ hF)
  show x ∈ List.map Prod.snd (updatePinnedState (moveTabState s t.id tgt TAB_POSITION_START)
    t.id true).tabs
  rw [pinnedStep_tabs s t tgt hfind hwin, List.map_map]
  refine List.mem_map.mpr ⟨(w', x), hI, ?_⟩
  simp [hne]

theorem pinnedStep_nodup (s : HostState) (t : Tab) (tgt : Nat)
    (hfind : (allTabs s).find? (fun x => x.id == t.id) = some t)
    (hwin : windowExists s tgt = true)
    (hids : (s.tabs.map (fun p => p.2.id)).Nodup) :
    ((updatePinnedState (moveTabState s t.id tgt TAB_POSITION_START) t.id
        true).tabs.map (fun p => p.2.id)).Nodup := by
  have hg : ∀ x : Tab, ((if x.id == t.id then { x with pinned := true } else x) : Tab).id
      = x.id := by
    intro x
    by_cases h : (x.id == t.id) = true <;> simp [h]
  rw [pinnedStep_tabs s t tgt hfind hwin]
  rw [entry_ids_map_preserve (fun x => if x.id == t.id then { x with pinned := true } else x)
    hg]
  have hperm : ((insertFlat tgt 0 (clearTab t)
      (s.tabs.filter (fun p => p.2.id != t.id))).map (fun p => p.2.id)).Perm
        ((clearTab t).id :: (s.tabs.filter (fun p => p.2.id != t.id)).map
          (fun p => p.2.id)) := by
    have := (insertFlat_perm tgt (clearTab t) 0
      (s.tabs.filter (fun p => p.2.id != t.id))).map (fun p : Nat × Tab => p.2.id)
    simpa using this
  rw [hperm.nodup_iff]
  have hsub : ((s.tabs.filter (fun p => p.2.id != t.id)).map (fun p => p.2.id)).Sublist
      (s.tabs.map (fun p => p.2.id)) :=
    (List.filter_sublist _).map _
  refine List.nodup_cons.mpr ⟨?_, hids.sublist hsub⟩
  intro hmem
  obtain ⟨pr, hpr, hid⟩ := List.mem_map.mp hmem
  have := (List.mem_filter.mp hpr).2
  rw [hid] at this
  simp [clearTab] at this

theorem migratePinnedTabs_reversed : ∀ (ps : List Tab) (tgt : Nat) (e : Eff),
    e.oracle = [] →
    (∀ t ∈ ps, t ∈ allTabs e.state) →
    ((e.state.tabs.map (fun p => p.2.id)).Nodup) →
    ((ps.map (fun x => x.id)).Nodup) →
    (∀ t ∈ ps, t.id ∉ (tabsQuery e.state tgt).map (fun x => x.id)) →
    windowExists e.state tgt = true →
    (tabsQuery (migratePinnedTabs ps tgt e).state tgt).map (fun x => x.id)
      = (ps.map (fun x => x.id)).reverse ++ (tabsQuery e.state tgt).map (fun x => x.id)
  | [], tgt, e, _, _, _, _, _, _ => by simp [migratePinnedTabs]
  | t :: ps, tgt, e, ho, hsub, hids, hpnodup, hnot, hwin => by
    obtain ⟨s, o0, tr⟩ := e
    change o0 = [] at ho
    subst ho
    have htm : t ∈ allTabs s := hsub t (List.mem_cons_self t ps)
    have hfind : (allTabs s).find? (fun x => x.id == t.id) = some t :=
      find_id_eq_self (by rw [allTabs_ids]; exact hids) htm
    have hstep : migratePinnedTabs (t :: ps) tgt (Eff.mk s [] tr)
        = migratePinnedTabs ps tgt (Eff.mk
            (updatePinnedState (moveTabState s t.id tgt TAB_POSITION_START) t.id true) []
            (tr ++ [Call.moveTab t.id tgt TAB_POSITION_START]
              ++ [Call.updatePinned t.id true])) := rfl
    rw [hstep]
    have hhead : t.id ∉ ps.map (fun x => x.id) :=
      (List.nodup_cons.mp (by simpa using hpnodup)).1
    have hwin2 : windowExists (updatePinnedState
        (moveTabState s t.id tgt TAB_POSITION_START) t.id true) tgt = true := by
      unfold windowExists at hwin ⊢
      rw [show (updatePinnedState (moveTabState s t.id tgt TAB_POSITION_START)
        t.id true).windows = s.windows from by rw [show (updatePinnedState
          (moveTabState s t.id tgt TAB_POSITION_START) t.id true).windows
            = (moveTabState s t.id tgt TAB_POSITION_START).windows from rfl,
          moveTabState_windows]]
      exact hwin
    have hstrip := pinnedStep_strip_ids s t tgt hfind hwin
      (hnot t (List.mem_cons_self t ps))
    rw [migratePinnedTabs_reversed ps tgt _ rfl ?hsub2 ?hids2 ?hpn2 ?hnot2 hwin2]
    case hsub2 =>
      intro p hp
      exact pinnedStep_mem s t tgt hfind hwin p (hsub p (List.mem_cons_of_mem t hp))
        (fun h => hhead (h ▸ List.mem_map_of_mem (fun x => x.id) hp))
    case hids2 => exact pinnedStep_nodup s t tgt hfind hwin hids
    case hpn2 => exact (List.nodup_cons.mp (by simpa using hpnodup)).2
    case hnot2 =>
      intro p hp
      rw [hstrip]
      intro hmem
      rcases List.mem_cons.mp hmem with h | h
      · exact hhead (h ▸ List.mem_map_of_mem (fun x => x.id) hp)
      · exact hnot p (List.mem_cons_of_mem t hp) h
    rw [hstrip]
    simp

/-- C10: because Phase A moves each pinned tab to index 0 of the target window
one at a time (and, in the all-successful run modelled by an exhausted oracle,
re-asserts its pinned flag after each move), the pinned tabs of a source window
end up at the front of the target window's strip in the reverse of their
original order. -/
theorem claim_C10 (ps : List Tab) (tgt : Nat) (e : Eff)
    (ho : e.oracle = [])
    (hsub : ∀ t ∈ ps, t ∈ allTabs e.state)
    (hids : (e.state.tabs.map (fun p => p.2.id)).Nodup)
    (hpnodup : (ps.map (fun x => x.id)).Nodup)
    (hnot : ∀ t ∈ ps, t.id ∉ (tabsQuery e.state tgt).map (fun x => x.id))
    (hwin : windowExists e.state tgt = true) :
    (tabsQuery (migratePinnedTabs ps tgt e).state tgt).map (fun x => x.id)
      = (ps.map (fun x => x.id)).reverse ++ (tabsQuery e.state tgt).map (fun x => x.id) :=
  migratePinnedTabs_reversed ps tgt e ho hsub hids hpnodup hnot hwin

theorem claim_C10_witness :
    (tabsQuery (migratePinnedTabs [Tab.mk 7 true none, Tab.mk 8 true none] 1
        (Eff.mk (HostState.mk
          [Window.mk 1 false WindowType.normal, Window.mk 2 false WindowType.normal]
          [(1, Tab.mk 50 false none), (2, Tab.mk 7 true none), (2, Tab.mk 8 true none)]
          [] 0) [] [])).state 1).map (fun x => x.id)
      = ([Tab.mk 7 true none, Tab.mk 8 true none].map (fun x => x.id)).reverse
          ++ (tabsQuery (HostState.mk
            [Window.mk 1 false WindowType.normal, Window.mk 2 false WindowType.normal]
            [(1, Tab.mk 50 false none), (2, Tab.mk 7 true none), (2, Tab.mk 8 true none)]
            [] 0) 1).map (fun x => x.id) :=
  claim_C10 [Tab.mk 7 true none, Tab.mk 8 true none] 1
    (Eff.mk (HostState.mk
      [Window.mk 1 false WindowType.normal, Window.mk 2 false WindowType.normal]
      [(1, Tab.mk 50 false none), (2, Tab.mk 7 true none), (2, Tab.mk 8 true none)]
      [] 0) [] [])
    rfl (by decide) (by decide) (by decide) (by decide) (by decide)

/- ============================================================
   C2: a migrated group survives with the same members and attributes,
   on both the direct-move path and the recreate path.
   ============================================================ -/

/-- The identifiers of the member tabs of group `gid`, anywhere on the host. -/
def groupMemberIds (s : HostState) (gid : Nat) : List Nat :=
  ((allTabs s).filter (fun t => t.groupId == some gid)).map (fun t => t.id)

/-- Exactly one group record with member-id set `ids` exists in window `tgt`,
and it carries `g`'s title, color and collapsed flag. -/
def uniqueTargetGroup (s : HostState) (tgt : Nat) (ids : List Nat) (g : TabGroup) : Prop :=
  ∃ gr : TabGroup, (gr ∈ s.groups ∧ gr.windowId = tgt ∧ gr.title = g.title
      ∧ gr.color = g.color ∧ gr.collapsed = g.collapsed
      ∧ (∀ i : Nat, i ∈ groupMemberIds s gr.id ↔ i ∈ ids))
    ∧ ∀ gr' : TabGroup, gr' ∈ s.groups → gr'.windowId = tgt
        → (∀ i : Nat, i ∈ groupMemberIds s gr'.id ↔ i ∈ ids) → gr' = gr

theorem contains_true_of_mem {l : List Nat} {a : Nat} (h : a ∈ l) : l.contains a = true :=
  List.elem_iff.mpr h

theorem contains_false_of_not_mem {l : List Nat} {a : Nat} (h : a ∉ l) :
    l.contains a = false := by
  cases hv : l.contains a with
  | false => rfl
  | true => exact absurd (List.elem_iff.mp hv) h

theorem moveTabState_groups (s : HostState) (tid w : Nat) (i : Int) :
    (moveTabState s tid w i).groups = s.groups := by
  unfold moveTabState
  by_cases h : windowExists s w = true
  · rw [if_pos h]
    cases hf : (allTabs s).find? (fun t => t.id == tid) with
    | none => rfl
    | some t => rfl
  · rw [if_neg h]

theorem moveTabState_nextGroupId (s : HostState) (tid w : Nat) (i : Int) :
    (moveTabState s tid w i).nextGroupId = s.nextGroupId := by
  unfold moveTabState
  by_cases h : windowExists s w = true
  · rw [if_pos h]
    cases hf : (allTabs s).find? (fun t => t.id == tid) with
    | none => rfl
    | some t => rfl
  · rw [if_neg h]

theorem moveTabsState_groups : ∀ (tabIds : List Nat) (s : HostState) (w : Nat),
    (moveTabsState s tabIds w).groups = s.groups
  | [], _, _ => rfl
  | tid :: rest, s, w => by
    show (moveTabsState (moveTabState s tid w (-1)) rest w).groups = s.groups
    rw [moveTabsState_groups rest _ w, moveTabState_groups]

theorem moveTabsState_nextGroupId : ∀ (tabIds : List Nat) (s : HostState) (w : Nat),
    (moveTabsState s tabIds w).nextGroupId = s.nextGroupId
  | [], _, _ => rfl
  | tid :: rest, s, w => by
    show (moveTabsState (moveTabState s tid w (-1)) rest w).nextGroupId = s.nextGroupId
    rw [moveTabsState_nextGroupId rest _ w, moveTabState_nextGroupId]

theorem moveTabsState_windows : ∀ (tabIds : List Nat) (s : HostState) (w : Nat),
    (moveTabsState s tabIds w).windows = s.windows
  | [], _, _ => rfl
  | tid :: rest, s, w => by
    show (moveTabsState (moveTabState s tid w (-1)) rest w).windows = s.windows
    rw [moveTabsState_windows rest _ w, moveTabState_windows]

theorem moveTabState_end_eq (s : HostState) (t : Tab) (tgt : Nat)
    (hfind : (allTabs s).find? (fun x => x.id == t.id) = some t)
    (hwin : windowExists s tgt = true) :
    moveTabState s t.id tgt (-1)
      = { s with tabs := s.tabs.filter (fun p => p.2.id != t.id) ++ [(tgt, clearTab t)] } := by
  unfold moveTabState
  rw [if_pos hwin, hfind]
  rfl

theorem moveTabState_end_mem (s : HostState) (t : Tab) (tgt : Nat)
    (hfind : (allTabs s).find? (fun x => x.id == t.id) = some t)
    (hwin : windowExists s tgt = true) (x : Tab) :
    x ∈ allTabs (moveTabState s t.id tgt (-1))
      ↔ ((x ∈ allTabs s ∧ x.id ≠ t.id) ∨ x = clearTab t) := by
  rw [moveTabState_end_eq s t tgt hfind hwin]
  show x ∈ List.map Prod.snd (s.tabs.filter (fun p => p.2.id != t.id) ++ [(tgt, clearTab t)]) ↔ _
  rw [List.map_append]
  simp only [List.mem_append, List.mem_map, List.mem_filter, List.map_cons, List.map_nil,
    List.mem_singleton, bne_iff_ne, ne_eq]
  constructor
  · rintro (⟨pr, ⟨hpr, hne⟩, rfl⟩ | h)
    · exact Or.inl ⟨List.mem_map_of_mem Prod.snd hpr, hne⟩
    · exact Or.inr h
  · rintro (⟨hx, hne⟩ | h)
    · obtain ⟨pr, hpr, rfl⟩ := List.mem_map.mp hx
      exact Or.inl ⟨pr, ⟨hpr, hne⟩, rfl⟩
    · exact Or.inr h

theorem moveTabState_end_entry_ids (s : HostState) (t : Tab) (tgt : Nat)
    (hfind : (allTabs s).find? (fun x => x.id == t.id) = some t)
    (hwin : windowExists s tgt = true)
    (hids : (s.tabs.map (fun p => p.2.id)).Nodup) :
    ((moveTabState s t.id tgt (-1)).tabs.map (fun p => p.2.id)).Nodup := by
  rw [moveTabState_end_eq s t tgt hfind hwin]
  show ((s.tabs.filter (fun p => p.2.id != t.id) ++ [(tgt, clearTab t)]).map
    (fun p => p.2.id)).Nodup
  rw [List.map_append]
  rw [List.nodup_append]
  refine ⟨hids.sublist ((List.filter_sublist _).map _), by simp, ?_⟩
  intro a ha hb
  simp only [List.map_cons, List.map_nil, List.mem_singleton] at hb
  obtain ⟨pr, hpr, rfl⟩ := List.mem_map.mp ha
  have := (List.mem_filter.mp hpr).2
  rw [hb] at this
  simp [clearTab] at this

theorem moveTabsState_mem : ∀ (ts : List Tab) (s : HostState) (tgt : Nat),
    windowExists s tgt = true →
    (s.tabs.map (fun p => p.2.id)).Nodup →
    (∀ t ∈ ts, t ∈ allTabs s) →
    ((ts.map (fun t => t.id)).Nodup) →
    ∀ x : Tab, x ∈ allTabs (moveTabsState s (ts.map (fun t => t.id)) tgt)
      ↔ ((x ∈ allTabs s ∧ x.id ∉ ts.map (fun t => t.id)) ∨ ∃ t0 ∈ ts, x = clearTab t0)
  | [], s, tgt, _, _, _, _, x => by simp [moveTabsState]
  | t :: ts, s, tgt, hwin, hids, hsub, htsnodup, x => by
    have htm : t ∈ allTabs s := hsub t (List.mem_cons_self t ts)
    have hfind : (allTabs s).find? (fun y => y.id == t.id) = some t :=
      find_id_eq_self (by rw [allTabs_ids]; exact hids) htm
    have hstep : moveTabsState s ((t :: ts).map (fun y => y.id)) tgt
        = moveTabsState (moveTabState s t.id tgt (-1)) (ts.map (fun y => y.id)) tgt := rfl
    rw [hstep]
    have hhead : t.id ∉ ts.map (fun y => y.id) :=
      (List.nodup_cons.mp (by simpa using htsnodup)).1
    have hwin1 : windowExists (moveTabState s t.id tgt (-1)) tgt = true := by
      unfold windowExists
      rw [show (moveTabState s t.id tgt (-1)).windows = s.windows from
        moveTabState_windows s t.id tgt (-1)]
      exact hwin
    have hids1 := moveTabState_end_entry_ids s t tgt hfind hwin hids
    have hsub1 : ∀ p ∈ ts, p ∈ allTabs (moveTabState s t.id tgt (-1)) := by
      intro p hp
      exact (moveTabState_end_mem s t tgt hfind hwin p).mpr
        (Or.inl ⟨hsub p (List.mem_cons_of_mem t hp),
          fun h => hhead (h ▸ List.mem_map_of_mem (fun y => y.id) hp)⟩)
    rw [moveTabsState_mem ts _ tgt hwin1 hids1 hsub1
      (List.nodup_cons.mp (by simpa using htsnodup)).2 x]
    rw [moveTabState_end_mem s t tgt hfind hwin x]
    constructor
    · rintro (⟨⟨hxs, hxt⟩ | rfl, hnotin⟩ | ⟨t0, ht0, rfl⟩)
      · refine Or.inl ⟨hxs, ?_⟩
        simp only [List.map_cons, List.mem_cons, not_or]
        exact ⟨hxt, hnotin⟩
      · exact Or.inr ⟨t, List.mem_cons_self t ts, rfl⟩
      · exact Or.inr ⟨t0, List.mem_cons_of_mem t ht0, rfl⟩
    · rintro (⟨hxs, hnotin⟩ | ⟨t0, ht0, rfl⟩)
      · have h1 : x.id ≠ t.id ∧ x.id ∉ ts.map (fun y => y.id) := by
          simpa [not_or] using hnotin
        exact Or.inl ⟨Or.inl ⟨hxs, h1.1⟩, h1.2⟩
      · rcases List.mem_cons.mp ht0 with rfl | hmem
        · refine Or.inl ⟨Or.inr rfl, ?_⟩
          show (clearTab t0).id ∉ ts.map (fun y => y.id)
          simpa [clearTab] using hhead
        · exact Or.inr ⟨t0, hmem, rfl⟩

theorem groupTabsState_mem (s : HostState) (tabIds : List Nat) (w : Nat) (x : Tab) :
    x ∈ allTabs (groupTabsState s tabIds w).2
      ↔ ∃ y ∈ allTabs s, x = (if tabIds.contains y.id = true
          then { y with groupId := some s.nextGroupId } else y) := by
  show x ∈ List.map Prod.snd (s.tabs.map (fun p =>
    (p.1, if tabIds.contains p.2.id then { p.2 with groupId := some s.nextGroupId }
      else p.2))) ↔ _
  rw [List.map_map]
  constructor
  · intro hx
    obtain ⟨pr, hpr, rfl⟩ := List.mem_map.mp hx
    exact ⟨pr.2, List.mem_map_of_mem Prod.snd hpr, rfl⟩
  · rintro ⟨y, hy, rfl⟩
    obtain ⟨pr, hpr, rfl⟩ := List.mem_map.mp hy
    exact List.mem_map_of_mem _ hpr

theorem moveGroupState_eq (s : HostState) (gid tgt : Nat)
    (hwin : windowExists s tgt = true) :
    moveGroupState s gid tgt = { s with
      tabs := s.tabs.filter (fun p => p.2.groupId != some gid)
        ++ (s.tabs.filter (fun p => p.2.groupId == some gid)).map (fun p => (tgt, p.2)),
      groups := s.groups.map (fun g2 =>
        if g2.id == gid then { g2 with windowId := tgt } else g2) } := by
  unfold moveGroupState
  rw [if_pos hwin]

theorem map_id_of_fix {α : Type} (f : α → α) : ∀ (l : List α), (∀ a ∈ l, f a = a) →
    l.map f = l
  | [], _ => rfl
  | a :: l, h => by
    rw [List.map_cons, h a (List.mem_cons_self a l),
      map_id_of_fix f l (fun b hb => h b (List.mem_cons_of_mem a hb))]

theorem recreate_groups_eq (s : HostState) (tabs : List Tab) (tgt : Nat) (g : TabGroup)
    (hfresh2 : ∀ g' ∈ s.groups, g'.id ≠ s.nextGroupId) :
    (updateGroupState (groupTabsState (moveTabsState s (tabs.map (fun t => t.id)) tgt)
        (tabs.map (fun t => t.id)) tgt).2
      (moveTabsState s (tabs.map (fun t => t.id)) tgt).nextGroupId
      g.title g.color g.collapsed).groups
    = s.groups ++ [TabGroup.mk s.nextGroupId tgt g.title g.color g.collapsed] := by
  have hnid : (moveTabsState s (tabs.map (fun t => t.id)) tgt).nextGroupId = s.nextGroupId :=
    moveTabsState_nextGroupId _ s tgt
  show (((moveTabsState s (tabs.map (fun t => t.id)) tgt).groups
      ++ [TabGroup.mk (moveTabsState s (tabs.map (fun t => t.id)) tgt).nextGroupId tgt "" 0
        false]).map
      (fun g2 => if g2.id == (moveTabsState s (tabs.map (fun t => t.id)) tgt).nextGroupId
        then { g2 with title := g.title, color := g.color, collapsed := g.collapsed } else g2))
    = s.groups ++ [TabGroup.mk s.nextGroupId tgt g.title g.color g.collapsed]
  rw [moveTabsState_groups, hnid, List.map_append]
  rw [map_id_of_fix _ s.groups (fun g2 hg2 => by
    have := hfresh2 g2 hg2
    simp [this])]
  simp

theorem moveGroup_uniqueTargetGroup (s : HostState) (g : TabGroup) (tabs : List Tab)
    (tgt : Nat)
    (htabs : tabs = (allTabs s).filter (fun t => t.groupId == some g.id))
    (hne : tabs ≠ []) (hg : g ∈ s.groups)
    (hgids : (s.groups.map (fun x => x.id)).Nodup)
    (hids : (s.tabs.map (fun p => p.2.id)).Nodup)
    (hwin : windowExists s tgt = true) :
    uniqueTargetGroup (moveGroupState s g.id tgt) tgt (tabs.map (fun t => t.id)) g := by
  have htmem : ∀ t ∈ tabs, t ∈ allTabs s := by
    intro t ht
    rw [htabs] at ht
    exact List.mem_of_mem_filter ht
  have htgrp : ∀ t ∈ tabs, t.groupId = some g.id := by
    intro t ht
    rw [htabs] at ht
    simpa using (List.mem_filter.mp ht).2
  have hinj : ∀ x ∈ allTabs s, ∀ y ∈ allTabs s, x.id = y.id → x = y :=
    fun x hx y hy h => List.inj_on_of_nodup_map (by rw [allTabs_ids]; exact hids) hx hy h
  have hginj : ∀ x ∈ s.groups, ∀ y ∈ s.groups, x.id = y.id → x = y :=
    fun x hx y hy h => List.inj_on_of_nodup_map hgids hx hy h
  have hpres : ∀ x : Tab, x ∈ allTabs (moveGroupState s g.id tgt) ↔ x ∈ allTabs s := by
    intro x
    rw [moveGroupState_eq s g.id tgt hwin]
    show x ∈ List.map Prod.snd (s.tabs.filter (fun p => p.2.groupId != some g.id)
      ++ (s.tabs.filter (fun p => p.2.groupId == some g.id)).map (fun p => (tgt, p.2))) ↔ _
    rw [List.map_append, List.map_map]
    simp only [List.mem_append, List.mem_map, List.mem_filter, Function.comp]
    constructor
    · rintro (⟨pr, ⟨hpr, _⟩, rfl⟩ | ⟨pr, ⟨hpr, _⟩, rfl⟩)
      · exact List.mem_map_of_mem Prod.snd hpr
      · exact List.mem_map_of_mem Prod.snd hpr
    · intro hx
      obtain ⟨pr, hpr, rfl⟩ := List.mem_map.mp hx
      by_cases hc : (pr.2.groupId == some g.id) = true
      · exact Or.inr ⟨pr, ⟨hpr, hc⟩, rfl⟩
      · exact Or.inl ⟨pr, ⟨hpr, by simpa using hc⟩, rfl⟩
  have hmidsiff : ∀ gid : Nat, ∀ i : Nat,
      i ∈ groupMemberIds (moveGroupState s g.id tgt) gid ↔ i ∈ groupMemberIds s gid := by
    intro gid i
    simp only [groupMemberIds, List.mem_map, List.mem_filter]
    constructor
    · rintro ⟨x, ⟨hx, hgp⟩, rfl⟩
      exact ⟨x, ⟨(hpres x).mp hx, hgp⟩, rfl⟩
    · rintro ⟨x, ⟨hx, hgp⟩, rfl⟩
      exact ⟨x, ⟨(hpres x).mpr hx, hgp⟩, rfl⟩
  have hmemg : groupMemberIds s g.id = tabs.map (fun t => t.id) := by
    rw [groupMemberIds, ← htabs]
  have hgroups : (moveGroupState s g.id tgt).groups
      = s.groups.map (fun g2 => if g2.id == g.id then { g2 with windowId := tgt } else g2) := by
    rw [moveGroupState_eq s g.id tgt hwin]
  refine ⟨{ g with windowId := tgt }, ⟨?_, rfl, rfl, rfl, rfl, ?_⟩, ?_⟩
  · rw [hgroups]
    have := List.mem_map_of_mem
      (fun g2 => if g2.id == g.id then { g2 with windowId := tgt } else g2) hg
    simpa using this
  · intro i
    rw [show ({ g with windowId := tgt } : TabGroup).id = g.id from rfl]
    rw [hmidsiff g.id i, hmemg]
  · intro gr' hgr' hw hiff
    obtain ⟨t1, rest, rfl⟩ : ∃ t1 rest, tabs = t1 :: rest := by
      cases tabs with
      | nil => exact absurd rfl hne
      | cons a l => exact ⟨a, l, rfl⟩
    have ht1id : t1.id ∈ (t1 :: rest).map (fun t => t.id) := by simp
    have hmm := (hiff t1.id).mpr ht1id
    rw [hmidsiff gr'.id t1.id] at hmm
    simp only [groupMemberIds, List.mem_map, List.mem_filter] at hmm
    obtain ⟨x, ⟨hxmem, hxgrp⟩, hxid⟩ := hmm
    have hxt1 : x = t1 := hinj x hxmem t1 (htmem t1 (List.mem_cons_self t1 rest)) hxid
    have h2 : t1.groupId = some gr'.id := by
      rw [← hxt1]
      simpa using hxgrp
    have h3 : some g.id = some gr'.id := by
      rw [← htgrp t1 (List.mem_cons_self t1 rest)]
      exact h2
    have hgr'id : gr'.id = g.id := (Option.some.inj h3).symm
    rw [hgroups] at hgr'
    obtain ⟨g2, hg2, hfg2⟩ := List.mem_map.mp hgr'
    by_cases hc : (g2.id == g.id) = true
    · rw [if_pos hc] at hfg2
      have hg2g : g2 = g := hginj g2 hg2 g hg (by simpa using hc)
      rw [hg2g] at hfg2
      exact hfg2.symm
    · rw [if_neg hc] at hfg2
      exfalso
      apply hc
      rw [beq_iff_eq, hfg2]
      exact hgr'id

theorem recreate_uniqueTargetGroup (s : HostState) (g : TabGroup) (tabs : List Tab)
    (tgt : Nat)
    (htabs : tabs = (allTabs s).filter (fun t => t.groupId == some g.id))
    (hne : tabs ≠ [])
    (hids : (s.tabs.map (fun p => p.2.id)).Nodup)
    (hwin : windowExists s tgt = true)
    (hfresh1 : ∀ t ∈ allTabs s, t.groupId ≠ some s.nextGroupId)
    (hfresh2 : ∀ g' ∈ s.groups, g'.id ≠ s.nextGroupId) :
    uniqueTargetGroup
      (updateGroupState (groupTabsState (moveTabsState s (tabs.map (fun t => t.id)) tgt)
          (tabs.map (fun t => t.id)) tgt).2
        (moveTabsState s (tabs.map (fun t => t.id)) tgt).nextGroupId
        g.title g.color g.collapsed)
      tgt (tabs.map (fun t => t.id)) g := by
  have htmem : ∀ t ∈ tabs, t ∈ allTabs s := by
    intro t ht
    rw [htabs] at ht
    exact List.mem_of_mem_filter ht
  have hallids : ((allTabs s).map (fun t => t.id)).Nodup := by
    rw [allTabs_ids]
    exact hids
  have htsnodup : ((tabs.map (fun t => t.id))).Nodup := by
    refine hallids.sublist ?_
    rw [htabs]
    exact (List.filter_sublist _).map _
  have hchar1 := moveTabsState_mem tabs s tgt hwin hids htmem htsnodup
  have hnid : (moveTabsState s (tabs.map (fun t => t.id)) tgt).nextGroupId = s.nextGroupId :=
    moveTabsState_nextGroupId _ s tgt
  have hmember : ∀ i : Nat, i ∈ groupMemberIds
      (updateGroupState (groupTabsState (moveTabsState s (tabs.map (fun t => t.id)) tgt)
          (tabs.map (fun t => t.id)) tgt).2
        (moveTabsState s (tabs.map (fun t => t.id)) tgt).nextGroupId
        g.title g.color g.collapsed) s.nextGroupId
      ↔ i ∈ tabs.map (fun t => t.id) := by
    intro i
    simp only [groupMemberIds, List.mem_map, List.mem_filter]
    constructor
    · rintro ⟨x, ⟨hx3, hgrp⟩, rfl⟩
      have hx2 : x ∈ allTabs (groupTabsState (moveTabsState s (tabs.map (fun t => t.id)) tgt)
          (tabs.map (fun t => t.id)) tgt).2 := hx3
      rw [groupTabsState_mem] at hx2
      obtain ⟨y, hy1, hxy⟩ := hx2
      by_cases hc : ((tabs.map (fun t => t.id)).contains y.id) = true
      · have hxidy : x.id = y.id := by rw [hxy, if_pos hc]
        rw [hxidy]
        obtain ⟨a, ha, haid⟩ := List.mem_map.mp (List.elem_iff.mp hc)
        exact ⟨a, ha, haid⟩
      · rw [if_neg hc] at hxy
        exfalso
        have hgid : y.groupId = some s.nextGroupId := by
          rw [← hxy]
          simpa using hgrp
        rcases (hchar1 y).mp hy1 with ⟨hys, _⟩ | ⟨t0, _, rfl⟩
        · exact hfresh1 y hys hgid
        · simp [clearTab] at hgid
    · intro hi
      obtain ⟨t0, ht0, rfl⟩ := hi
      have hcc : ((tabs.map (fun t => t.id)).contains (clearTab t0).id) = true := by
        show ((tabs.map (fun t => t.id)).contains t0.id) = true
        exact contains_true_of_mem (List.mem_map_of_mem (fun t => t.id) ht0)
      have hy1 : clearTab t0 ∈ allTabs (moveTabsState s (tabs.map (fun t => t.id)) tgt) :=
        (hchar1 (clearTab t0)).mpr (Or.inr ⟨t0, ht0, rfl⟩)
      refine ⟨{ clearTab t0 with groupId := some s.nextGroupId }, ⟨?_, by simp⟩, by
        simp [clearTab]⟩
      show ({ clearTab t0 with groupId := some s.nextGroupId } : Tab)
        ∈ allTabs (groupTabsState (moveTabsState s (tabs.map (fun t => t.id)) tgt)
          (tabs.map (fun t => t.id)) tgt).2
      rw [groupTabsState_mem]
      exact ⟨clearTab t0, hy1, by rw [if_pos hcc, hnid]⟩
  refine ⟨TabGroup.mk s.nextGroupId tgt g.title g.color g.collapsed,
    ⟨?_, rfl, rfl, rfl, rfl, fun i => hmember i⟩, ?_⟩
  · rw [recreate_groups_eq s tabs tgt g hfresh2]
    exact List.mem_append_right _ (List.mem_singleton_self _)
  · intro gr' hgr' hw hiff
    obtain ⟨t1, rest, rfl⟩ : ∃ t1 rest, tabs = t1 :: rest := by
      cases tabs with
      | nil => exact absurd rfl hne
      | cons a l => exact ⟨a, l, rfl⟩
    have ht1id : t1.id ∈ (t1 :: rest).map (fun t => t.id) := by simp
    have hmm := (hiff t1.id).mpr ht1id
    simp only [groupMemberIds, List.mem_map, List.mem_filter] at hmm
    obtain ⟨x, ⟨hx3, hgrp⟩, hxid⟩ := hmm
    have hx2 : x ∈ allTabs (groupTabsState (moveTabsState s ((t1 :: rest).map (fun t => t.id))
        tgt) ((t1 :: rest).map (fun t => t.id)) tgt).2 := hx3
    rw [groupTabsState_mem] at hx2
    obtain ⟨y, hy1, hxy⟩ := hx2
    by_cases hc : (((t1 :: rest).map (fun t => t.id)).contains y.id) = true
    · have hgid : x.groupId = some (moveTabsState s ((t1 :: rest).map (fun t => t.id))
          tgt).nextGroupId := by
        rw [hxy, if_pos hc]
      have hgid2 : x.groupId = some gr'.id := by simpa using hgrp
      rw [hgid, hnid] at hgid2
      have hgr'id : gr'.id = s.nextGroupId := (Option.some.inj hgid2).symm
      rw [recreate_groups_eq s (t1 :: rest) tgt g hfresh2] at hgr'
      rcases List.mem_append.mp hgr' with hmem | hmem
      · exact absurd hgr'id (hfresh2 gr' hmem)
      · simpa using hmem
    · rw [if_neg hc] at hxy
      exfalso
      rcases (hchar1 y).mp hy1 with ⟨_, hynotin⟩ | ⟨t0, ht0, hty⟩
      · apply hynotin
        rw [← hxy, hxid]
        exact ht1id
      · apply hc
        rw [hty]
        show (((t1 :: rest).map (fun t => t.id)).contains t0.id) = true
        exact contains_true_of_mem (List.mem_map_of_mem (fun t => t.id) ht0)

/-- C2: for a group G whose member tabs are exactly `tabs` (non-empty), the
per-group migration step leaves exactly one group in the target window whose
member-id set is exactly the ids of `tabs`, with title, color and collapsed
flag equal to G's original values — both when the direct whole-group move
succeeds and when it fails and the recreate fallback (batch move, regroup,
re-apply attributes) runs to completion. -/
theorem claim_C2 (e : Eff) (g : TabGroup) (tabs : List Tab) (tgt : Nat)
    (htabs : tabs = (allTabs e.state).filter (fun t => t.groupId == some g.id))
    (hne : tabs ≠ [])
    (hg : g ∈ e.state.groups)
    (hgids : (e.state.groups.map (fun x => x.id)).Nodup)
    (hids : (e.state.tabs.map (fun p => p.2.id)).Nodup)
    (hwin : windowExists e.state tgt = true)
    (hfresh1 : ∀ t ∈ allTabs e.state, t.groupId ≠ some e.state.nextGroupId)
    (hfresh2 : ∀ g' ∈ e.state.groups, g'.id ≠ e.state.nextGroupId) :
    (∀ o, e.oracle = true :: o →
      uniqueTargetGroup (migrateTabGroups [GroupedTabs.mk g tabs] tgt e).state tgt
        (tabs.map (fun t => t.id)) g) ∧
    (∀ o, e.oracle = false :: true :: true :: true :: o →
      uniqueTargetGroup (migrateTabGroups [GroupedTabs.mk g tabs] tgt e).state tgt
        (tabs.map (fun t => t.id)) g) := by
  obtain ⟨s, o0, tr⟩ := e
  constructor
  · intro o ho
    change o0 = true :: o at ho
    subst ho
    have hrun : (migrateTabGroups [GroupedTabs.mk g tabs] tgt
        (Eff.mk s (true :: o) tr)).state = moveGroupState s g.id tgt := by
      rw [migrateTabGroups_cons (GroupedTabs.mk g tabs) [] tgt (Eff.mk s (true :: o) tr) hne]
      exact rfl
    rw [hrun]
    exact moveGroup_uniqueTargetGroup s g tabs tgt htabs hne hg hgids hids hwin
  · intro o ho
    change o0 = false :: true :: true :: true :: o at ho
    subst ho
    have hrun : (migrateTabGroups [GroupedTabs.mk g tabs] tgt
        (Eff.mk s (false :: true :: true :: true :: o) tr)).state
        = updateGroupState (groupTabsState (moveTabsState s (tabs.map (fun t => t.id)) tgt)
            (tabs.map (fun t => t.id)) tgt).2
          (moveTabsState s (tabs.map (fun t => t.id)) tgt).nextGroupId
          g.title g.color g.collapsed := by
      rw [migrateTabGroups_cons (GroupedTabs.mk g tabs) [] tgt
        (Eff.mk s (false :: true :: true :: true :: o) tr) hne]
      exact rfl
    rw [hrun]
    exact recreate_uniqueTargetGroup s g tabs tgt htabs hne hids hwin hfresh1 hfresh2

theorem claim_C2_witness :
    uniqueTargetGroup
      (migrateTabGroups [GroupedTabs.mk (TabGroup.mk 100 2 "work" 3 true)
          [Tab.mk 10 false (some 100)]] 1
        (Eff.mk (HostState.mk
          [Window.mk 1 false WindowType.normal, Window.mk 2 false WindowType.normal]
          [(2, Tab.mk 10 false (some 100))]
          [TabGroup.mk 100 2 "work" 3 true] 101) [true] [])).state 1
      ([Tab.mk 10 false (some 100)].map (fun t => t.id))
      (TabGroup.mk 100 2 "work" 3 true) :=
  (claim_C2
    (Eff.mk (HostState.mk
      [Window.mk 1 false WindowType.normal, Window.mk 2 false WindowType.normal]
      [(2, Tab.mk 10 false (some 100))]
      [TabGroup.mk 100 2 "work" 3 true] 101) [true] [])
    (TabGroup.mk 100 2 "work" 3 true)
    [Tab.mk 10 false (some 100)] 1
    (by decide) (by decide) (by decide) (by decide) (by decide) (by decide)
    (by decide) (by decide)).1 [] rfl
